import Mathlib

/-!
# Mapty: the workout model and the session controller

A shallow embedding of `src/js/script.js` (classes `Workout`, `Running`, `Cycling`, `App`).

Conventions of the embedding:

* A JavaScript number is a `JSNum`: a finite number given by its exact value, `NaN`,
  `+Infinity` or `-Infinity`. The quotient `/` and the reading of a numeral are rounded to
  binary64 (`binary64`: nearest, a tie to the even mantissa, overflow to an infinity, gradual
  underflow). The sign of zero is not represented.
* A JavaScript value is a `JSVal`; an object is the list of its own enumerable properties in
  creation order. Prototypes (methods) are not represented: the methods of the workout classes
  run only inside the constructors.
* The text kept by `localStorage` under the key `workouts` is represented by the JSON document
  it denotes (`Json`), so `JSON.stringify` is `JSVal.toJson` and `JSON.parse` is `Json.toJS`.
* The map widget, the list of rendered entries, the form and `alert` are recorded as data in the
  state: a call into one of them appends to, or updates, that record. Timers are not represented.
* A handler returns the new state together with an `Outcome`: `ok`, `typeError` when the
  handler body is cut short by a `TypeError` (a property read on `undefined` or `null`), or
  `mapError` when the map widget throws.
-/

namespace Mapty

/-! ## Numbers -/

/-- A JavaScript number: a finite number, given by its exact value, `NaN`, `Infinity` or
`-Infinity`. The finite numbers the program meets are binary64 numbers: what the unary plus
reads from an input and what `binary64` returns. -/
inductive JSNum where
  | fin (q : ℚ)
  | nan
  | posInf
  | negInf
deriving DecidableEq

namespace JSNum

/-- The comparison `inp > 0` (script.js line 160). -/
def gtZero : JSNum → Bool
  | fin q => decide (0 < q)
  | nan => false
  | posInf => true
  | negInf => false

/-- The comparison `inp <= 0`. -/
def leZero : JSNum → Bool
  | fin q => decide (q ≤ 0)
  | nan => false
  | posInf => false
  | negInf => true

/-- The global `isFinite(inp)` on a number (script.js line 163). -/
def isFinite : JSNum → Bool
  | fin _ => true
  | _ => false

/-- Rounding to the nearest integer, a tie going to the even one. -/
def roundHalfEven (r : ℚ) : ℤ :=
  if r - ⌊r⌋ < 1 / 2 then ⌊r⌋
  else if 1 / 2 < r - ⌊r⌋ then ⌊r⌋ + 1
  else if ⌊r⌋ % 2 = 0 then ⌊r⌋ else ⌊r⌋ + 1

/-- The exponent `e` of the binary64 unit in the last place `2^e` at the magnitude of `x`:
53 bits of mantissa, and `2^(-1074)` for the subnormal numbers. -/
def exponentOf (x : ℚ) : ℤ := max (Int.log 2 |x| - 52) (-1074)

/-- The magnitude from which rounding to binary64 gives an infinity. -/
def overflowBound : ℚ := 2 ^ 1024

/-- Rounding of an exact value to binary64: the nearest multiple of the unit in the last
place, a tie going to the even mantissa; an infinity from `2^1024` on. -/
def binary64 (x : ℚ) : JSNum :=
  if overflowBound ≤ (roundHalfEven (|x| / 2 ^ exponentOf x) : ℚ) * 2 ^ exponentOf x then
    (if 0 < x then posInf else negInf)
  else if 0 ≤ x then fin ((roundHalfEven (|x| / 2 ^ exponentOf x) : ℚ) * 2 ^ exponentOf x)
  else fin (-((roundHalfEven (|x| / 2 ^ exponentOf x) : ℚ) * 2 ^ exponentOf x))

/-- The operator `/` on numbers: the exact quotient rounded to binary64. -/
def div : JSNum → JSNum → JSNum
  | nan, _ => nan
  | _, nan => nan
  | fin a, fin b =>
    if b = 0 then (if a = 0 then nan else if 0 < a then posInf else negInf)
    else binary64 (a / b)
  | fin _, posInf => fin 0
  | fin _, negInf => fin 0
  | posInf, fin b => if b < 0 then negInf else posInf
  | negInf, fin b => if b < 0 then posInf else negInf
  | posInf, posInf => nan
  | posInf, negInf => nan
  | negInf, posInf => nan
  | negInf, negInf => nan

/-- The integer `n` of `Number.prototype.toFixed(1)` for a magnitude `x ≥ 0`: the integer for
which `n / 10 - x` is as close to zero as possible, the larger one when there are two. -/
def tenthsOf (x : ℚ) : ℤ := ⌊10 * x + 1 / 2⌋

/-- The expression `+(x).toFixed(1)`: `toFixed(1)` followed by the unary plus that reads the
text back as a number. A value that is not finite prints as its name and reads back as itself;
from `10^21` on `toFixed` prints the number itself; below that it prints the sign and the
numeral `n / 10` with `n = tenthsOf |x|`, which the unary plus reads as the nearest binary64
number. -/
def toFixed1 : JSNum → JSNum
  | fin q =>
    if (10 : ℚ) ^ 21 ≤ |q| then fin q
    else if q < 0 then binary64 (-((tenthsOf (-q) : ℚ) / 10))
    else binary64 ((tenthsOf q : ℚ) / 10)
  | nan => nan
  | posInf => posInf
  | negInf => negInf

end JSNum

/-! ## Values and JSON documents -/

/-- A JavaScript value. An object is the list of its own enumerable properties. -/
inductive JSVal where
  | undefined
  | null
  | bool (b : Bool)
  | num (x : JSNum)
  | str (s : String)
  | arr (xs : List JSVal)
  | obj (props : List (String × JSVal))

/-- A JSON document. -/
inductive Json where
  | null
  | bool (b : Bool)
  | num (q : ℚ)
  | str (s : String)
  | arr (xs : List Json)
  | obj (props : List (String × Json))

namespace JSVal

/-- Whether a property read on the value throws a `TypeError`. -/
def isNullish : JSVal → Bool
  | undefined => true
  | null => true
  | _ => false

/-- Lookup of a key in a property list. -/
def lookup (k : String) : List (String × JSVal) → JSVal
  | [] => undefined
  | (k', v) :: ps => if k' = k then v else lookup k ps

/-- The property read `v.k` for the keys this program reads (`id`, `coords`, `type`,
`description`, `distance`, `duration`, `pace`, `cadence`, `speed`, `elevation`): the own
property of an object, and `undefined` on every other value that is not nullish (none of these
keys exists on a number, a string, a boolean or an array). The handlers test `isNullish`
before they read. -/
def get (v : JSVal) (k : String) : JSVal :=
  match v with
  | obj ps => lookup k ps
  | _ => undefined

/-- Assignment of a property: replaces the value in place, or appends a new property. -/
def setProp (k : String) (v : JSVal) : List (String × JSVal) → List (String × JSVal)
  | [] => [(k, v)]
  | (k', v') :: ps => if k' = k then (k', v) :: ps else (k', v') :: setProp k v ps

mutual
/-- `JSON.stringify` on a value, as the document it writes; `none` where `JSON.stringify`
returns `undefined`. A number that is not finite is written as `null`. -/
def toJson : JSVal → Option Json
  | undefined => none
  | null => some Json.null
  | bool b => some (Json.bool b)
  | num (JSNum.fin q) => some (Json.num q)
  | num _ => some Json.null
  | str s => some (Json.str s)
  | arr xs => some (Json.arr (toJsonElems xs))
  | obj ps => some (Json.obj (toJsonProps ps))
/-- The elements of an array: `undefined` is written as `null`. -/
def toJsonElems : List JSVal → List Json
  | [] => []
  | x :: xs => (match toJson x with | some j => j | none => Json.null) :: toJsonElems xs
/-- The properties of an object: a property whose value is `undefined` is left out. -/
def toJsonProps : List (String × JSVal) → List (String × Json)
  | [] => []
  | (k, v) :: ps =>
    match toJson v with
    | some j => (k, j) :: toJsonProps ps
    | none => toJsonProps ps
end

end JSVal

namespace Json

mutual
/-- `JSON.parse` on a document. -/
def toJS : Json → JSVal
  | null => JSVal.null
  | bool b => JSVal.bool b
  | num q => JSVal.num (JSNum.fin q)
  | str s => JSVal.str s
  | arr xs => JSVal.arr (toJSElems xs)
  | obj ps => JSVal.obj (toJSProps ps [])
/-- The elements of a parsed array. -/
def toJSElems : List Json → List JSVal
  | [] => []
  | x :: xs => toJS x :: toJSElems xs
/-- The properties of a parsed object, defined one after the other on the object built so
far: a key that occurs twice keeps its first place and its last value. -/
def toJSProps : List (String × Json) → List (String × JSVal) → List (String × JSVal)
  | [], acc => acc
  | (k, v) :: ps, acc => toJSProps ps (JSVal.setProp k (toJS v) acc)
end

end Json

/-! ## The workout classes (script.js lines 14-65) -/

/-- What a constructor reads from its environment: `Date.now()` for the id, and the text that
`Intl.DateTimeFormat('en-US', {month: 'long', day: 'numeric'})` gives for `new Date()`. -/
structure Clock where
  now : Nat
  dateText : String

/-- `Number.prototype.toString` on a non-negative integer (below `10^21`): its decimal
digits. -/
def numberToString (n : Nat) : String := String.mk (Nat.toDigits 10 n)

/-- `String.prototype.slice(-k)`: the last `k` characters, the whole string when it is
shorter. -/
def sliceLast (k : Nat) (s : String) : String := String.mk (s.data.drop (s.data.length - k))

namespace Workout

/-- The field `id = Date.now().toString().slice(-10)` (line 16). -/
def id (now : Nat) : String := sliceLast 10 (numberToString now)

/-- The method `_setDescription` (lines 24-32), as the text it assigns to `description`. -/
def _setDescription (type : String) (dateText : String) : String :=
  (type.get 0).toUpper.toString ++ type.drop 1 ++ " on " ++ dateText

/-- The properties set by the `Workout` constructor (lines 15-22), in creation order. -/
def new (c : Clock) (coords : JSVal) (distance duration : JSNum) : List (String × JSVal) :=
  [("id", JSVal.str (id c.now)), ("coords", coords),
   ("distance", JSVal.num distance), ("duration", JSVal.num duration)]

end Workout

namespace Running

/-- The method `_setPace` (lines 46-48), as the number it assigns to `pace`. -/
def _setPace (distance duration : JSNum) : JSNum := (duration.div distance).toFixed1

/-- The constructor of `Running` (lines 35-44). -/
def new (c : Clock) (coords : JSVal) (distance duration cadence : JSNum) : JSVal :=
  JSVal.obj (Workout.new c coords distance duration ++
    [("type", JSVal.str "running"), ("cadence", JSVal.num cadence),
     ("description", JSVal.str (Workout._setDescription "running" c.dateText)),
     ("pace", JSVal.num (_setPace distance duration))])

end Running

namespace Cycling

/-- The method `_setSpeed` (lines 62-64), as the number it assigns to `speed`. -/
def _setSpeed (distance duration : JSNum) : JSNum :=
  (distance.div (duration.div (JSNum.fin 60))).toFixed1

/-- The constructor of `Cycling` (lines 51-60). -/
def new (c : Clock) (coords : JSVal) (distance duration elevation : JSNum) : JSVal :=
  JSVal.obj (Workout.new c coords distance duration ++
    [("type", JSVal.str "cycling"), ("elevation", JSVal.num elevation),
     ("description", JSVal.str (Workout._setDescription "cycling" c.dateText)),
     ("speed", JSVal.num (_setSpeed distance duration))])

end Cycling

/-! ## The application (script.js lines 68-331) -/

/-- A request `setView(center, zoom)` received by the map; `animated` tells the request of
`_movetoMarker` (`animate: true`, pan of one second) from the first view of `_renderMap`. -/
structure View where
  center : JSVal
  zoom : Nat
  animated : Bool

/-- A marker with its popup, as the values `_renderMarker` reads from the workout. -/
structure Marker where
  coords : JSVal
  type : JSVal
  description : JSVal

/-- The map widget `L.map('map')`, as the record of what it was asked to do; `removed` is
set by `remove()`, which the widget accepts once. -/
structure LMap where
  views : List View
  markers : List Marker
  removed : Bool

/-- A rendered list entry, as the values `_renderEntry` reads from the workout; `fading` is
set once `_clearWorkouts` has scheduled its removal. -/
structure Entry where
  dataId : JSVal
  type : JSVal
  description : JSVal
  distance : JSVal
  duration : JSVal
  details : List JSVal
  fading : Bool

/-- The form inputs. A numeric input is represented by the number that the unary plus reads
from its text (`+distanceInp.value`), a binary64 number given by its exact value; the empty
text reads as `0`. -/
structure Inputs where
  type : String
  distance : JSNum
  duration : JSNum
  cadence : JSNum
  elevation : JSNum

/-- The state of the page: the private fields of `App` (`#map`, `#clickCoords`, `#workouts`),
the item `workouts` of `localStorage`, and the parts of the document the handlers touch. -/
structure App where
  map : Option LMap
  clickCoords : JSVal
  workouts : List JSVal
  storage : Option (List Json)
  formHidden : Bool
  formDisplay : String
  inputs : Inputs
  entries : List Entry
  alerts : List String
  geoRequests : Nat

/-- The result of running a handler body: run to its end, cut short by a `TypeError` (a
property read on `undefined` or `null`), or cut short by an `Error` that the map widget
throws. -/
inductive Outcome where
  | ok
  | typeError
  | mapError
deriving DecidableEq

namespace App

/-- The field `#mapZoomLvl = 15` (line 70). -/
def mapZoomLvl : Nat := 15

/-- The page before `new App()` has run any step, with what `localStorage` holds. -/
def fresh (storage : Option (List Json)) : App :=
  { map := none, clickCoords := JSVal.undefined, workouts := [], storage := storage,
    formHidden := true, formDisplay := "grid",
    inputs := { type := "running", distance := JSNum.fin 0, duration := JSNum.fin 0,
                cadence := JSNum.fin 0, elevation := JSNum.fin 0 },
    entries := [], alerts := [], geoRequests := 0 }

/-- The method `_getCurrentLocation` (lines 95-109); `geo` tells whether
`navigator.geolocation` exists. The two callbacks run later, as `_renderMap` or
`geoFailure`. -/
def _getCurrentLocation (geo : Bool) (s : App) : App :=
  if geo then { s with geoRequests := s.geoRequests + 1 }
  else { s with alerts := s.alerts ++ ["Couldn't get your current location"] }

/-- The failure callback of `getCurrentPosition` (line 107). -/
def geoFailure (s : App) : App :=
  { s with alerts := s.alerts ++ ["Couldn't get your current location"] }

/-- The method `_renderMarker` (lines 274-290): reads `workout.coords`, then adds the marker
to `#map`. -/
def _renderMarker (s : App) (workout : JSVal) : App × Outcome :=
  if workout.isNullish then (s, Outcome.typeError)
  else
    match s.map with
    | none => (s, Outcome.typeError)
    | some m =>
      ({ s with map := some { m with markers := m.markers ++
          [{ coords := workout.get "coords", type := workout.get "type",
             description := workout.get "description" }] } }, Outcome.ok)

/-- The loop `this.#workouts.forEach(workout => this._renderMarker(workout))` (line 120). -/
def renderMarkers (s : App) : List JSVal → App × Outcome
  | [] => (s, Outcome.ok)
  | w :: ws =>
    match _renderMarker s w with
    | (s', Outcome.ok) => renderMarkers s' ws
    | r => r

/-- The method `_renderMap` (lines 111-130), called by the success callback of
`getCurrentPosition` with `coords = [lat, lng]`. -/
def _renderMap (s : App) (lat lng : JSNum) : App × Outcome :=
  let m : LMap :=
    { views := [{ center := JSVal.arr [JSVal.num lat, JSVal.num lng], zoom := mapZoomLvl,
                  animated := false }],
      markers := [], removed := false }
  renderMarkers { s with map := some m } s.workouts

/-- The method `_showForm` (lines 132-135). -/
def _showForm (s : App) : App := { s with formHidden := false }

/-- The handler of a click on the map (lines 123-129). -/
def mapClick (s : App) (lat lng : JSNum) : App :=
  _showForm { s with clickCoords := JSVal.arr [JSVal.num lat, JSVal.num lng] }

/-- The method `_renderEntry` (lines 223-272): reads the fields of the workout and inserts
the entry right after the form, before the entries already there. -/
def _renderEntry (s : App) (workout : JSVal) : App × Outcome :=
  if workout.isNullish then (s, Outcome.typeError)
  else
    let type := workout.get "type"
    let details :=
      (match type with
        | JSVal.str "running" => [workout.get "pace", workout.get "cadence"]
        | _ => []) ++
      (match type with
        | JSVal.str "cycling" => [workout.get "speed", workout.get "elevation"]
        | _ => [])
    ({ s with entries :=
        { dataId := workout.get "id", type := type,
          description := workout.get "description", distance := workout.get "distance",
          duration := workout.get "duration", details := details, fading := false }
        :: s.entries }, Outcome.ok)

/-- The loop `this.#workouts.forEach(workout => this._renderEntry(workout))`
(lines 143-145). -/
def renderEntries (s : App) : List JSVal → App × Outcome
  | [] => (s, Outcome.ok)
  | w :: ws =>
    match _renderEntry s w with
    | (s', Outcome.ok) => renderEntries s' ws
    | r => r

/-- The method `_getLocalStorage` (lines 138-146). -/
def _getLocalStorage (s : App) : App × Outcome :=
  match s.storage with
  | none => (s, Outcome.ok)
  | some doc =>
    let ws := Json.toJSElems doc
    renderEntries { s with workouts := ws } ws

/-- The method `_setLocalStorage` (lines 203-205). -/
def _setLocalStorage (s : App) : App :=
  { s with storage := some (JSVal.toJsonElems s.workouts) }

/-- The method `_hideForm` (lines 207-221). -/
def _hideForm (s : App) : App :=
  { s with
    inputs := { s.inputs with distance := JSNum.fin 0, duration := JSNum.fin 0,
                              cadence := JSNum.fin 0, elevation := JSNum.fin 0 },
    formDisplay := "none",
    formHidden := true }

/-- The handler of the Escape key (lines 81-85). -/
def escapeKey (s : App) : App :=
  if s.formHidden then s else { s with formHidden := true }

/-- The tail of `_newWorkout` (lines 193-200): push, save, hide the form, render the entry,
render the marker. -/
def pushWorkout (s : App) (workout : JSVal) : App × Outcome :=
  let s1 := { s with workouts := s.workouts ++ [workout] }
  let s2 := _setLocalStorage s1
  let s3 := _hideForm s2
  match _renderEntry s3 workout with
  | (s4, Outcome.ok) => _renderMarker s4 workout
  | r => r

/-- The method `_newWorkout` (lines 156-201), with the clock the constructors read. -/
def _newWorkout (c : Clock) (s : App) : App × Outcome :=
  let type := s.inputs.type
  let distance := s.inputs.distance
  let duration := s.inputs.duration
  if type = "running" then
    let cadence := s.inputs.cadence
    if !(distance.gtZero && duration.gtZero && cadence.gtZero) then
      ({ s with alerts := s.alerts ++ ["Inputs have to be positive numbers"] }, Outcome.ok)
    else
      pushWorkout s (Running.new c s.clickCoords distance duration cadence)
  else if type = "cycling" then
    let elevation := s.inputs.elevation
    if !(distance.gtZero && duration.gtZero) then
      ({ s with alerts := s.alerts ++ ["Distance and duration have to be positive numbers"] },
        Outcome.ok)
    else if !elevation.isFinite then
      ({ s with alerts := s.alerts ++ ["Elevation have to a number"] }, Outcome.ok)
    else
      pushWorkout s (Cycling.new c s.clickCoords distance duration elevation)
  else
    pushWorkout s JSVal.undefined

/-- The call `this.#workouts.find(workout => workout.id === id)` (lines 302-304): the first
workout whose `id` is the string `id`; `none` when the callback throws on a nullish element,
`some undefined` when no element matches. -/
def findById (id : String) : List JSVal → Option JSVal
  | [] => some JSVal.undefined
  | w :: ws =>
    if w.isNullish then none
    else
      match w.get "id" with
      | JSVal.str i => if i = id then some w else findById id ws
      | _ => findById id ws

/-- The method `_movetoMarker` (lines 293-313); `clicked` is `e.target.closest('.workout')`,
given by the `data-id` of that entry when there is one. -/
def _movetoMarker (s : App) (clicked : Option String) : App × Outcome :=
  match s.map with
  | none => (s, Outcome.ok)
  | some m =>
    match clicked with
    | none => (s, Outcome.ok)
    | some id =>
      match findById id s.workouts with
      | none => (s, Outcome.typeError)
      | some clickedWorkout =>
        if clickedWorkout.isNullish then (s, Outcome.typeError)
        else
          ({ s with map := some { m with views := m.views ++
              [{ center := clickedWorkout.get "coords", zoom := mapZoomLvl,
                 animated := true }] } }, Outcome.ok)

/-- The method `_clearWorkouts` (lines 316-330); `geo` tells whether `navigator.geolocation`
exists. The call `this.#map.remove()` (line 324) throws a `TypeError` when `#map` is
`undefined`, and the widget throws an `Error` when the map has been removed before; in both
cases the lines after it do not run. -/
def _clearWorkouts (geo : Bool) (s : App) : App × Outcome :=
  let s1 := { s with entries := s.entries.map fun (e : Entry) => { e with fading := true } }
  match s1.map with
  | none => (s1, Outcome.typeError)
  | some m =>
    if m.removed then (s1, Outcome.mapError)
    else
      let s2 := { s1 with map := some { m with markers := [], removed := true } }
      let s3 := _getCurrentLocation geo s2
      ({ s3 with workouts := [], storage := none }, Outcome.ok)

/-- The workout at the end of the store, `undefined` when the store is empty. -/
def newest (s : App) : JSVal := s.workouts.getLastD JSVal.undefined

/-- The user types into the form. -/
def fillForm (s : App) (i : Inputs) : App := { s with inputs := i }

/-- The body of `constructor()` up to the registration of the handlers (lines 74-78). -/
def start (geo : Bool) (storage : Option (List Json)) : App × Outcome :=
  _getLocalStorage (_getCurrentLocation geo (fresh storage))

/-- Whether a map exists: `#map` holds a map that has not been removed. -/
def hasLiveMap (s : App) : Bool :=
  match s.map with
  | some m => !m.removed
  | none => false

/-- The last `setView` request the map has received. -/
def lastView (s : App) : Option View := s.map.bind fun m => m.views.getLast?

/-- The store written to storage by `_setLocalStorage` and read back by `_getLocalStorage`
on a page that starts with that snapshot. -/
def roundTrip (s : App) : App × Outcome := _getLocalStorage (fresh (_setLocalStorage s).storage)

end App

/-- Whether the inputs pass the validation of `_newWorkout` for one of the two types
(lines 176 and 186-188). -/
def Inputs.passes (i : Inputs) : Bool :=
  (i.type == "running" && i.distance.gtZero && i.duration.gtZero && i.cadence.gtZero)
    || (i.type == "cycling" && i.distance.gtZero && i.duration.gtZero && i.elevation.isFinite)

/-- One round of use: a click on the map (or none), the form as the user fills it, and the
clock the constructor reads when the form is submitted. -/
structure Submission where
  click : Option (JSNum × JSNum)
  inputs : Inputs
  clock : Clock

namespace App

/-- The state after one round: the click, the typing, the submit. -/
def submit (s : App) (x : Submission) : App :=
  (_newWorkout x.clock
    (fillForm (match x.click with
      | some (lat, lng) => mapClick s lat lng
      | none => s) x.inputs)).1

/-- The state after a sequence of rounds. -/
def submitAll (s : App) (xs : List Submission) : App := xs.foldl submit s

end App

/-- The pending coordinate pair after the click of a round. -/
def Submission.pending (x : Submission) (before : JSVal) : JSVal :=
  match x.click with
  | some (lat, lng) => JSVal.arr [JSVal.num lat, JSVal.num lng]
  | none => before

/-- The workout that a round constructs when its inputs pass, given the pending coordinate
pair before the round. -/
def Submission.workout (x : Submission) (before : JSVal) : JSVal :=
  if x.inputs.type = "running" then
    Running.new x.clock (x.pending before) x.inputs.distance x.inputs.duration x.inputs.cadence
  else
    Cycling.new x.clock (x.pending before) x.inputs.distance x.inputs.duration
      x.inputs.elevation

/-- A value that is absent or a finite number. -/
def JSVal.FiniteOrAbsent (v : JSVal) : Prop :=
  v = JSVal.undefined ∨ ∃ q : ℚ, v = JSVal.num (JSNum.fin q)

/-- The fields of a record that the round trip is about: the id, the coordinates, the
distance, the duration, the description, the type and the derived metric. -/
def namedFields : List String :=
  ["id", "coords", "distance", "duration", "description", "type", "pace", "speed"]

/-- A workout whose numbers among the named fields are finite: the coordinates (when there
are any), the distance, the duration, the pace or speed. -/
def JSVal.FiniteNumbers (w : JSVal) : Prop :=
  (w.get "coords" = JSVal.undefined
      ∨ ∃ a b : ℚ, w.get "coords" = JSVal.arr [JSVal.num (JSNum.fin a), JSVal.num (JSNum.fin b)])
    ∧ (w.get "distance").FiniteOrAbsent ∧ (w.get "duration").FiniteOrAbsent
    ∧ (w.get "pace").FiniteOrAbsent ∧ (w.get "speed").FiniteOrAbsent

/-- What `_getLocalStorage` reads back for a workout that `_setLocalStorage` has written. -/
def JSVal.reparse (w : JSVal) : JSVal :=
  Json.toJS (match w.toJson with
    | some j => j
    | none => Json.null)

/-- The shape of `#clickCoords`: `undefined` before the first click, then a pair. -/
def JSVal.IsPending (v : JSVal) : Prop :=
  v = JSVal.undefined ∨ ∃ lat lng : JSNum, v = JSVal.arr [JSVal.num lat, JSVal.num lng]

/-- A workout made by one of the two constructors at a pending coordinate pair. -/
def JSVal.IsBuilt (w : JSVal) : Prop :=
  ∃ (c : Clock) (coords : JSVal) (d t y : JSNum), coords.IsPending ∧
    (w = Running.new c coords d t y ∨ w = Cycling.new c coords d t y)

/-- The decimal digits of a number, lowest first, with the single digit `0` for zero. -/
def decimalDigits (n : Nat) : List Nat := if n = 0 then [0] else Nat.digits 10 n

/-! ## Scenario data -/

/-- A creation time, 14 November 2023. -/
def scenarioClock : Clock := { now := 1700000054321, dateText := "November 14" }

/-- The page once the location (51.5, -0.1) has been acquired, with nothing stored, after a
click on the map at (51.6, -0.2). -/
def scenarioReady : App :=
  App.mapClick (App._renderMap (App.fresh none) (JSNum.fin 51.5) (JSNum.fin (-0.1))).1
    (JSNum.fin 51.6) (JSNum.fin (-0.2))

/-- A filled form for a run. -/
def runInputs (distance duration cadence : JSNum) : Inputs :=
  { type := "running", distance := distance, duration := duration, cadence := cadence,
    elevation := JSNum.fin 0 }

/-- A filled form for a ride. -/
def rideInputs (distance duration elevation : JSNum) : Inputs :=
  { type := "cycling", distance := distance, duration := duration, cadence := JSNum.fin 0,
    elevation := elevation }

/-- Scenario A: a run of 5 km in 25 minutes at cadence 150 is typed into the form. -/
def scenarioRun : App :=
  App.fillForm scenarioReady (runInputs (JSNum.fin 5) (JSNum.fin 25) (JSNum.fin 150))

/-- Scenario A after the form has been submitted. -/
def scenarioRunDone : App := (App._newWorkout scenarioClock scenarioRun).1

/-- Scenario C: the same run with cadence 0. -/
def scenarioNoCadence : App :=
  App.fillForm scenarioReady (runInputs (JSNum.fin 5) (JSNum.fin 25) (JSNum.fin 0))

/-- Scenario B: a ride of 20 km in 60 minutes with elevation -5. -/
def scenarioRide : App :=
  App.fillForm scenarioReady (rideInputs (JSNum.fin 20) (JSNum.fin 60) (JSNum.fin (-5)))

/-- A run whose distance input reads as `Infinity`. -/
def scenarioEndlessRun : App :=
  App.fillForm scenarioReady (runInputs JSNum.posInf (JSNum.fin 25) (JSNum.fin 150))

/-- A run whose distance input reads as `0`. -/
def scenarioZeroRun : App :=
  App.fillForm scenarioReady (runInputs (JSNum.fin 0) (JSNum.fin 25) (JSNum.fin 150))

/-- The page with a map and nothing stored, before any click. -/
def scenarioMapReady : App :=
  (App._renderMap (App.fresh none) (JSNum.fin 51.5) (JSNum.fin (-0.1))).1

/-- Two runs at different places, created `10^10` milliseconds (about 116 days) apart. -/
def collidingPair : List Submission :=
  [{ click := some (JSNum.fin 10, JSNum.fin 20),
     inputs := runInputs (JSNum.fin 5) (JSNum.fin 25) (JSNum.fin 150),
     clock := { now := 1700000000000, dateText := "November 14" } },
   { click := some (JSNum.fin 30, JSNum.fin 40),
     inputs := runInputs (JSNum.fin 8) (JSNum.fin 40) (JSNum.fin 160),
     clock := { now := 1710000000000, dateText := "March 9" } }]

/-- Two runs at different places, created one second apart. -/
def distinctPair : List Submission :=
  [{ click := some (JSNum.fin 10, JSNum.fin 20),
     inputs := runInputs (JSNum.fin 5) (JSNum.fin 25) (JSNum.fin 150),
     clock := { now := 1700000000000, dateText := "November 14" } },
   { click := some (JSNum.fin 30, JSNum.fin 40),
     inputs := runInputs (JSNum.fin 8) (JSNum.fin 40) (JSNum.fin 160),
     clock := { now := 1700000001000, dateText := "November 14" } }]

/-- A single run whose distance input reads as `Infinity`. -/
def endlessRun : List Submission :=
  [{ click := some (JSNum.fin 10, JSNum.fin 20),
     inputs := runInputs JSNum.posInf (JSNum.fin 25) (JSNum.fin 150),
     clock := scenarioClock }]

/-- The page with a map after the two runs of `collidingPair`. -/
def scenarioCollided : App := scenarioMapReady.submitAll collidingPair

/-- The page with a map after the two runs of `distinctPair`. -/
def scenarioTwoRuns : App := scenarioMapReady.submitAll distinctPair

/-- Scenario A once more, directly after a click on the reset button. -/
def scenarioCleared : App := (App._clearWorkouts true scenarioRunDone).1

/-! ## Rounding -/

/-- Rounding of a number to one decimal place, in the words of the specification: the
nearest multiple of one tenth, as a number (the binary64 number nearest to it); a value that
is not finite is left as it is. -/
def round1 : JSNum → JSNum
  | JSNum.fin q => JSNum.binary64 ((round (10 * q) : ℤ) / 10)
  | x => x

/-! ## Lemmas on numbers -/

theorem roundHalfEven_intCast (k : ℤ) : JSNum.roundHalfEven (k : ℚ) = k := by
  simp [JSNum.roundHalfEven]

theorem roundHalfEven_nonneg (r : ℚ) (h : 0 ≤ r) : 0 ≤ JSNum.roundHalfEven r := by
  have hf : 0 ≤ ⌊r⌋ := Int.floor_nonneg.mpr h
  unfold JSNum.roundHalfEven
  split_ifs <;> omega

theorem roundHalfEven_le (r : ℚ) (n : ℤ) (h : r ≤ n) : JSNum.roundHalfEven r ≤ n := by
  have hf : ⌊r⌋ ≤ n := Int.floor_le_iff.mpr (lt_of_le_of_lt h (by linarith))
  rcases lt_or_eq_of_le hf with hlt | heq
  · unfold JSNum.roundHalfEven
    split_ifs <;> omega
  · have hr : r = n := by
      apply le_antisymm h
      rw [← heq]; exact Int.floor_le r
    rw [hr, roundHalfEven_intCast]

theorem exponentOf_ge (x : ℚ) : -1074 ≤ JSNum.exponentOf x := le_max_right _ _

theorem two_zpow_pos (e : ℤ) : (0 : ℚ) < 2 ^ e := zpow_pos (by norm_num) e

theorem lt_two_zpow_log (a : ℚ) : a < 2 ^ (Int.log 2 a + 1) := by
  have := Int.lt_zpow_succ_log_self (R := ℚ) (b := 2) (by norm_num) a
  simpa using this

theorem mantissa_lt (a : ℚ) (ha : 0 ≤ a) : |a| / 2 ^ JSNum.exponentOf a < 2 ^ (53 : ℕ) := by
  rw [abs_of_nonneg ha, div_lt_iff₀ (two_zpow_pos _)]
  have h1 : a < 2 ^ (Int.log 2 a + 1) := lt_two_zpow_log a
  have h2 : (2 : ℚ) ^ (Int.log 2 a + 1) ≤ 2 ^ (53 : ℕ) * 2 ^ JSNum.exponentOf a := by
    rw [← zpow_natCast, ← zpow_add₀ (by norm_num : (2 : ℚ) ≠ 0)]
    apply zpow_le_zpow_right₀ (by norm_num)
    have : Int.log 2 |a| - 52 ≤ JSNum.exponentOf a := le_max_left _ _
    rw [abs_of_nonneg ha] at this
    push_cast
    omega
  linarith

theorem exponentOf_abs (x : ℚ) : JSNum.exponentOf |x| = JSNum.exponentOf x := by
  simp [JSNum.exponentOf]

theorem exponentOf_neg (x : ℚ) : JSNum.exponentOf (-x) = JSNum.exponentOf x := by
  simp [JSNum.exponentOf]

/-- A value whose magnitude is a whole multiple of its unit in the last place, below
`2^1024`, is a JSNum.binary64 number: rounding leaves it as it is. -/
theorem binary64_of_whole (q : ℚ) (k : ℤ) (hk : |q| / 2 ^ JSNum.exponentOf q = k)
    (hlt : |q| < JSNum.overflowBound) : JSNum.binary64 q = JSNum.fin q := by
  have hy : (JSNum.roundHalfEven (|q| / 2 ^ JSNum.exponentOf q) : ℚ) * 2 ^ JSNum.exponentOf q = |q| := by
    rw [hk, roundHalfEven_intCast, ← hk]
    exact div_mul_cancel₀ _ (two_zpow_pos _).ne'
  unfold JSNum.binary64
  rw [hy, if_neg (not_le.mpr hlt)]
  by_cases h0 : 0 ≤ q
  · rw [if_pos h0, abs_of_nonneg h0]
  · rw [if_neg h0, abs_of_neg (not_le.mp h0), neg_neg]

/-- The magnitude `m * 2^e` with `m ≤ 2^53` and `e ≥ -1074` is a whole multiple of its unit
in the last place. -/
theorem whole_of_mantissa (m e : ℤ) (hm0 : 0 ≤ m) (hm : m ≤ 2 ^ 53) (he : -1074 ≤ e) :
    ∃ k : ℤ, |(m : ℚ) * 2 ^ e| / 2 ^ JSNum.exponentOf ((m : ℚ) * 2 ^ e) = k := by
  have h2 : (2 : ℚ) ≠ 0 := by norm_num
  have hnn : (0 : ℚ) ≤ (m : ℚ) * 2 ^ e :=
    mul_nonneg (by exact_mod_cast hm0) (two_zpow_pos e).le
  rw [abs_of_nonneg hnn]
  rcases eq_or_lt_of_le hm0 with h0 | hpos
  · exact ⟨0, by rw [← h0]; simp⟩
  have hypos : (0 : ℚ) < (m : ℚ) * 2 ^ e :=
    mul_pos (by exact_mod_cast hpos) (two_zpow_pos e)
  rcases eq_or_lt_of_le hm with htop | hlt
  · -- the mantissa is `2^53`: the value is the power `2^(53+e)`
    have hval : (m : ℚ) * 2 ^ e = 2 ^ (53 + e) := by
      rw [htop, zpow_add₀ h2]; norm_num
    have hlog : Int.log 2 ((m : ℚ) * 2 ^ e) = 53 + e := by
      rw [hval]
      have := Int.log_zpow (R := ℚ) (b := 2) (by norm_num) (53 + e)
      simpa using this
    have hexp : JSNum.exponentOf ((m : ℚ) * 2 ^ e) = e + 1 := by
      unfold JSNum.exponentOf
      rw [abs_of_nonneg hnn, hlog]
      omega
    refine ⟨2 ^ 52, ?_⟩
    rw [hexp, hval, ← zpow_sub₀ h2]
    have : 53 + e - (e + 1) = 52 := by ring
    rw [this]; norm_num
  · -- the mantissa is below `2^53`: the unit is at most `2^e`
    have hlt' : (m : ℚ) * 2 ^ e < 2 ^ (53 + e) := by
      rw [zpow_add₀ h2]
      apply mul_lt_mul_of_pos_right _ (two_zpow_pos e)
      have : (m : ℚ) < ((2 ^ 53 : ℤ) : ℚ) := by exact_mod_cast hlt
      rw [Int.cast_pow] at this
      exact_mod_cast this
    have hlog : Int.log 2 ((m : ℚ) * 2 ^ e) < 53 + e := by
      have := (Int.lt_zpow_iff_log_lt (R := ℚ) (b := 2) (by norm_num) hypos (x := 53 + e)).mp
        (by simpa using hlt')
      exact this
    have hexp : JSNum.exponentOf ((m : ℚ) * 2 ^ e) ≤ e := by
      unfold JSNum.exponentOf
      rw [abs_of_nonneg hnn]
      omega
    obtain ⟨n, hn⟩ := Int.eq_ofNat_of_zero_le (sub_nonneg.mpr hexp)
    refine ⟨m * 2 ^ n, ?_⟩
    rw [mul_div_assoc, ← zpow_sub₀ h2, hn]
    push_cast
    rw [zpow_natCast]

theorem mantissa_bounds (x : ℚ) :
    0 ≤ JSNum.roundHalfEven (|x| / 2 ^ JSNum.exponentOf x)
      ∧ JSNum.roundHalfEven (|x| / 2 ^ JSNum.exponentOf x) ≤ 2 ^ 53 := by
  constructor
  · exact roundHalfEven_nonneg _ (div_nonneg (abs_nonneg x) (two_zpow_pos _).le)
  · apply roundHalfEven_le
    have := mantissa_lt |x| (abs_nonneg x)
    rw [abs_abs, exponentOf_abs] at this
    have h : ((2 ^ 53 : ℤ) : ℚ) = 2 ^ (53 : ℕ) := by norm_num
    rw [h]
    exact this.le

/-- Every finite result of the rounding is `m * 2^e` or its opposite, with a mantissa
`0 ≤ m ≤ 2^53` and an exponent `e ≥ -1074`, of magnitude below `2^1024`. -/
theorem binary64_shape (x q : ℚ) (h : JSNum.binary64 x = JSNum.fin q) :
    ∃ m e : ℤ, 0 ≤ m ∧ m ≤ 2 ^ 53 ∧ -1074 ≤ e ∧ (m : ℚ) * 2 ^ e < JSNum.overflowBound
      ∧ (q = (m : ℚ) * 2 ^ e ∨ q = -((m : ℚ) * 2 ^ e))
      ∧ (0 ≤ x → q = (m : ℚ) * 2 ^ e) := by
  obtain ⟨hm0, hm⟩ := mantissa_bounds x
  refine ⟨JSNum.roundHalfEven (|x| / 2 ^ JSNum.exponentOf x), JSNum.exponentOf x, hm0, hm, exponentOf_ge x, ?_⟩
  unfold JSNum.binary64 at h
  by_cases hbig : JSNum.overflowBound
      ≤ (JSNum.roundHalfEven (|x| / 2 ^ JSNum.exponentOf x) : ℚ) * 2 ^ JSNum.exponentOf x
  · rw [if_pos hbig] at h
    split_ifs at h
  · rw [if_neg hbig] at h
    refine ⟨not_le.mp hbig, ?_⟩
    by_cases h0 : 0 ≤ x
    · rw [if_pos h0] at h
      have := JSNum.fin.inj h
      exact ⟨Or.inl this.symm, fun _ => this.symm⟩
    · rw [if_neg h0] at h
      have := JSNum.fin.inj h
      exact ⟨Or.inr this.symm, fun h' => absurd h' h0⟩

/-- Rounding a JSNum.binary64 number leaves it as it is. -/
theorem binary64_idem (x q : ℚ) (h : JSNum.binary64 x = JSNum.fin q) : JSNum.binary64 q = JSNum.fin q := by
  obtain ⟨m, e, hm0, hm, he, hlt, hq, -⟩ := binary64_shape x q h
  obtain ⟨k, hk⟩ := whole_of_mantissa m e hm0 hm he
  have hnn : (0 : ℚ) ≤ (m : ℚ) * 2 ^ e :=
    mul_nonneg (by exact_mod_cast hm0) (two_zpow_pos e).le
  rcases hq with rfl | rfl
  · exact binary64_of_whole _ k hk (lt_of_eq_of_lt (abs_of_nonneg hnn) hlt)
  · apply binary64_of_whole _ k
    · rw [abs_neg, exponentOf_neg]; exact hk
    · exact lt_of_eq_of_lt (by rw [abs_neg, abs_of_nonneg hnn]) hlt

/-- A JSNum.binary64 number of magnitude `10^21` or more is whole. -/
theorem binary64_whole_of_large (x q : ℚ) (h : JSNum.binary64 x = JSNum.fin q)
    (hbig : (10 : ℚ) ^ 21 ≤ |q|) : ∃ n : ℤ, q = n := by
  obtain ⟨m, e, hm0, hm, he, -, hq, -⟩ := binary64_shape x q h
  have habs : |q| = (m : ℚ) * 2 ^ e := by
    have hnn : (0 : ℚ) ≤ (m : ℚ) * 2 ^ e :=
      mul_nonneg (by exact_mod_cast hm0) (two_zpow_pos e).le
    rcases hq with rfl | rfl
    · exact abs_of_nonneg hnn
    · rw [abs_neg, abs_of_nonneg hnn]
  have he0 : 0 ≤ e := by
    by_contra hneg
    have hneg : e ≤ -1 := by omega
    have h1 : (2 : ℚ) ^ e ≤ 2 ^ (-1 : ℤ) := zpow_le_zpow_right₀ (by norm_num) hneg
    have h2 : (m : ℚ) ≤ 2 ^ 53 := by exact_mod_cast hm
    have h3 : (m : ℚ) * 2 ^ e ≤ 2 ^ 53 * 2 ^ (-1 : ℤ) :=
      mul_le_mul h2 h1 (two_zpow_pos e).le (by norm_num)
    rw [habs] at hbig
    have : (2 : ℚ) ^ 53 * 2 ^ (-1 : ℤ) < 10 ^ 21 := by norm_num
    linarith
  obtain ⟨n, hn⟩ := Int.eq_ofNat_of_zero_le he0
  rcases hq with rfl | rfl
  · exact ⟨m * 2 ^ n, by rw [hn]; push_cast; rw [zpow_natCast]⟩
  · exact ⟨-(m * 2 ^ n), by rw [hn]; push_cast; rw [zpow_natCast]⟩

theorem binary64_nonneg (x q : ℚ) (hx : 0 ≤ x) (h : JSNum.binary64 x = JSNum.fin q) : 0 ≤ q := by
  obtain ⟨m, e, hm0, -, -, -, -, hq⟩ := binary64_shape x q h
  rw [hq hx]
  exact mul_nonneg (by exact_mod_cast hm0) (two_zpow_pos e).le

theorem binary64_ne_negInf (x : ℚ) (hx : 0 ≤ x) : JSNum.binary64 x ≠ JSNum.negInf := by
  unfold JSNum.binary64
  split_ifs with h1 h2 <;> simp
  · rcases eq_or_lt_of_le hx with h0 | hpos
    · have hz : JSNum.roundHalfEven 0 = 0 := by simpa using roundHalfEven_intCast 0
      rw [← h0, abs_zero, zero_div, hz, Int.cast_zero, zero_mul] at h1
      exact absurd h1 (not_le.mpr (by unfold JSNum.overflowBound; positivity))
    · exact absurd hpos h2

theorem binary64_ne_nan (x : ℚ) : JSNum.binary64 x ≠ JSNum.nan := by
  unfold JSNum.binary64
  split_ifs <;> simp

/-- A whole number up to `2^53` is a JSNum.binary64 number. -/
theorem binary64_intCast (n : ℤ) (h0 : 0 ≤ n) (h : n ≤ 2 ^ 53) :
    JSNum.binary64 (n : ℚ) = JSNum.fin (n : ℚ) := by
  obtain ⟨k, hk⟩ := whole_of_mantissa n 0 h0 h (by norm_num)
  simp only [zpow_zero, mul_one] at hk
  apply binary64_of_whole _ k hk
  rw [abs_of_nonneg (by exact_mod_cast h0)]
  have h1 : (n : ℚ) ≤ 2 ^ 53 := by exact_mod_cast h
  have h2 : (2 : ℚ) ^ 53 < JSNum.overflowBound := by
    unfold JSNum.overflowBound
    exact pow_lt_pow_right₀ (by norm_num) (by norm_num)
  exact lt_of_le_of_lt h1 h2

theorem div_fin_ne_zero (a b : ℚ) (hb : b ≠ 0) :
    JSNum.div (JSNum.fin a) (JSNum.fin b) = JSNum.binary64 (a / b) := by
  simp [JSNum.div, hb]

/-- On a number that is not negative, and that is a binary64 number if it reaches `10^21`,
`+(x).toFixed(1)` is the rounding to one decimal place. -/
theorem toFixed1_fin_eq_round1 (q : ℚ) (h0 : 0 ≤ q)
    (hb : (10 : ℚ) ^ 21 ≤ |q| → ∃ x, JSNum.binary64 x = JSNum.fin q) :
    JSNum.toFixed1 (JSNum.fin q) = round1 (JSNum.fin q) := by
  by_cases hbig : (10 : ℚ) ^ 21 ≤ |q|
  · obtain ⟨x, hx⟩ := hb hbig
    obtain ⟨n, hn⟩ := binary64_whole_of_large x q hx hbig
    have hr : (((round (10 * q) : ℤ) : ℚ) / 10) = q := by
      have h10 : ((10 : ℚ) * q) = ((10 * n : ℤ) : ℚ) := by rw [hn]; push_cast; ring
      rw [h10, round_intCast, hn]; push_cast; ring
    simp only [JSNum.toFixed1, round1, if_pos hbig, hr]
    exact (binary64_idem x q hx).symm
  · have hneg : ¬ q < 0 := not_lt.mpr h0
    simp only [JSNum.toFixed1, round1, if_neg hbig, if_neg hneg, JSNum.tenthsOf, round_eq]

/-- On every result of rounding a value that is not negative, `+(x).toFixed(1)` is the
rounding to one decimal place. -/
theorem toFixed1_binary64 (x : ℚ) (hx : 0 ≤ x) :
    JSNum.toFixed1 (JSNum.binary64 x) = round1 (JSNum.binary64 x) := by
  cases h : JSNum.binary64 x with
  | fin q => exact toFixed1_fin_eq_round1 q (binary64_nonneg x q hx h) (fun _ => ⟨x, h⟩)
  | nan => rfl
  | posInf => rfl
  | negInf => rfl

theorem log_two_eq (a : ℚ) (n : ℤ) (ha : 0 < a) (h1 : (2 : ℚ) ^ n ≤ a)
    (h2 : a < (2 : ℚ) ^ (n + 1)) : Int.log 2 a = n := by
  have hle : n ≤ Int.log 2 a :=
    (Int.zpow_le_iff_le_log (R := ℚ) (b := 2) (by norm_num) ha).mp (by simpa using h1)
  have hlt : Int.log 2 a < n + 1 :=
    (Int.lt_zpow_iff_log_lt (R := ℚ) (b := 2) (by norm_num) ha).mp (by simpa using h2)
  omega

theorem roundHalfEven_of_lt (r : ℚ) (k : ℤ) (h1 : (k : ℚ) ≤ r) (h2 : r < k + 1 / 2) :
    JSNum.roundHalfEven r = k := by
  have hf : ⌊r⌋ = k := by
    rw [Int.floor_eq_iff]
    exact ⟨h1, by linarith⟩
  unfold JSNum.roundHalfEven
  rw [hf, if_pos (by linarith)]

theorem toFixed1_intCast (n : ℤ) (h0 : 0 ≤ n) (h : n ≤ 2 ^ 53) :
    JSNum.toFixed1 (JSNum.fin (n : ℚ)) = JSNum.fin (n : ℚ) := by
  have hq0 : (0 : ℚ) ≤ (n : ℚ) := by exact_mod_cast h0
  have hq : (n : ℚ) ≤ 2 ^ 53 := by exact_mod_cast h
  have hbig : ¬ (10 : ℚ) ^ 21 ≤ |(n : ℚ)| := by
    rw [abs_of_nonneg hq0, not_le]
    exact lt_of_le_of_lt hq (by norm_num)
  have ht : JSNum.tenthsOf (n : ℚ) = 10 * n := by
    unfold JSNum.tenthsOf
    have : ((10 : ℚ) * (n : ℚ) + 1 / 2) = ((10 * n : ℤ) : ℚ) + 1 / 2 := by push_cast; ring
    rw [this, Int.floor_int_add]
    norm_num
  have hv : (((10 * n : ℤ) : ℚ) / 10) = (n : ℚ) := by push_cast; ring
  simp only [JSNum.toFixed1, if_neg hbig, if_neg (not_lt.mpr hq0), ht, hv]
  exact binary64_intCast n h0 h

theorem round1_intCast (n : ℤ) (h0 : 0 ≤ n) (h : n ≤ 2 ^ 53) :
    round1 (JSNum.fin (n : ℚ)) = JSNum.fin (n : ℚ) := by
  have h10 : ((10 : ℚ) * (n : ℚ)) = ((10 * n : ℤ) : ℚ) := by push_cast; ring
  have hv : (((10 * n : ℤ) : ℚ) / 10) = (n : ℚ) := by push_cast; ring
  simp only [round1, h10, round_intCast, hv]
  exact binary64_intCast n h0 h

/-- A quotient that is a whole number up to `2^53` is exact. -/
theorem div_whole (a b : ℚ) (n : ℤ) (hb : b ≠ 0) (hq : a / b = n) (h0 : 0 ≤ n)
    (h : n ≤ 2 ^ 53) : JSNum.div (JSNum.fin a) (JSNum.fin b) = JSNum.fin (n : ℚ) := by
  rw [div_fin_ne_zero a b hb, hq]
  exact binary64_intCast n h0 h

/-- A power of two from `2^1024` on rounds to `Infinity`. -/
theorem binary64_two_zpow_large (n : ℤ) (h : 1024 ≤ n) :
    JSNum.binary64 ((2 : ℚ) ^ n) = JSNum.posInf := by
  have h2 : (2 : ℚ) ≠ 0 := by norm_num
  have hpos : (0 : ℚ) < 2 ^ n := two_zpow_pos n
  have hlog : Int.log 2 |(2 : ℚ) ^ n| = n := by
    rw [abs_of_pos hpos]
    have := Int.log_zpow (R := ℚ) (b := 2) (by norm_num) n
    simpa using this
  have hexp : JSNum.exponentOf ((2 : ℚ) ^ n) = n - 52 := by
    unfold JSNum.exponentOf
    rw [hlog]; omega
  have hm : JSNum.roundHalfEven (|(2 : ℚ) ^ n| / 2 ^ (n - 52)) = 2 ^ 52 := by
    rw [abs_of_pos hpos, ← zpow_sub₀ h2]
    have : n - (n - 52) = 52 := by ring
    rw [this]
    have h52 : ((2 : ℚ) ^ (52 : ℤ)) = ((2 ^ 52 : ℤ) : ℚ) := by norm_num
    rw [h52, roundHalfEven_intCast]
  have hy : (((2 ^ 52 : ℤ) : ℚ)) * 2 ^ (n - 52) = 2 ^ n := by
    have h52 : ((2 ^ 52 : ℤ) : ℚ) = (2 : ℚ) ^ (52 : ℤ) := by norm_num
    rw [h52, ← zpow_add₀ h2]
    congr 1; ring
  have hbig : JSNum.overflowBound ≤ (2 : ℚ) ^ n := by
    unfold JSNum.overflowBound
    rw [← zpow_natCast]
    exact zpow_le_zpow_right₀ (by norm_num) (by exact_mod_cast h)
  unfold JSNum.binary64
  rw [hexp, hm, hy, if_pos hbig, if_pos hpos]

/-- Overflow of the quotient: at distance `2^(-600)` and duration `2^600`, both finite and
positive, the pace is `Infinity`. -/
theorem setPace_overflow :
    Running._setPace (JSNum.fin (2 ^ (-600 : ℤ))) (JSNum.fin (2 ^ (600 : ℤ)))
      = JSNum.posInf := by
  have h2 : (2 : ℚ) ≠ 0 := by norm_num
  have hq : ((2 : ℚ) ^ (600 : ℤ)) / 2 ^ (-600 : ℤ) = 2 ^ (1200 : ℤ) := by
    rw [← zpow_sub₀ h2]; norm_num
  rw [Running._setPace, div_fin_ne_zero _ _ (two_zpow_pos _).ne', hq,
    binary64_two_zpow_large 1200 (by norm_num)]
  rfl

/-- The quotient `29 / 20` is the binary64 number just below `1.45`. -/
theorem div_twentynine_twenty :
    JSNum.div (JSNum.fin 29) (JSNum.fin 20)
      = JSNum.fin ((6530219459687219 : ℤ) * 2 ^ (-52 : ℤ)) := by
  rw [div_fin_ne_zero _ _ (by norm_num)]
  have hlog : Int.log 2 |(29 : ℚ) / 20| = 0 :=
    log_two_eq _ 0 (by norm_num) (by norm_num [abs_of_pos]) (by norm_num [abs_of_pos])
  have hexp : JSNum.exponentOf ((29 : ℚ) / 20) = -52 := by
    unfold JSNum.exponentOf
    rw [hlog]; norm_num
  have hm : JSNum.roundHalfEven (|(29 : ℚ) / 20| / 2 ^ (-52 : ℤ)) = 6530219459687219 :=
    roundHalfEven_of_lt _ _ (by norm_num [abs_of_pos]) (by norm_num [abs_of_pos])
  unfold JSNum.binary64
  rw [hexp, hm]
  have hsmall : ¬ JSNum.overflowBound
      ≤ ((6530219459687219 : ℤ) : ℚ) * 2 ^ (-52 : ℤ) := by
    rw [not_le]
    have h1 : ((6530219459687219 : ℤ) : ℚ) * 2 ^ (-52 : ℤ) < 2 := by norm_num
    have h2 : (2 : ℚ) ≤ JSNum.overflowBound := by
      unfold JSNum.overflowBound
      exact le_self_pow₀ (by norm_num) (by norm_num)
    linarith
  rw [if_neg hsmall, if_pos (by norm_num)]

/-- At distance 20 and duration 29 the pace is the number read from the numeral `1.4`. -/
theorem setPace_twenty_twentynine :
    Running._setPace (JSNum.fin 20) (JSNum.fin 29) = JSNum.binary64 (14 / 10) := by
  have hbig : ¬ (10 : ℚ) ^ 21 ≤ |((6530219459687219 : ℤ) : ℚ) * 2 ^ (-52 : ℤ)| := by
    norm_num [abs_of_pos]
  have hneg : ¬ ((6530219459687219 : ℤ) : ℚ) * 2 ^ (-52 : ℤ) < 0 := by norm_num
  have ht : JSNum.tenthsOf (((6530219459687219 : ℤ) : ℚ) * 2 ^ (-52 : ℤ)) = 14 := by
    unfold JSNum.tenthsOf
    rw [Int.floor_eq_iff]
    constructor <;> norm_num
  simp only [Running._setPace, div_twentynine_twenty, JSNum.toFixed1, if_neg hbig, if_neg hneg,
    ht]
  norm_num

theorem gtZero_of_leZero (x : JSNum) (h : x.leZero = true) : x.gtZero = false := by
  cases x <;> simp_all [JSNum.leZero, JSNum.gtZero]

theorem description_running (dateText : String) :
    Workout._setDescription "running" dateText = "Running on " ++ dateText := by
  have h1 : ("running".get 0).toUpper.toString = "R" := by decide
  have h2 : "running".drop 1 = "unning" := by decide
  simp only [Workout._setDescription, h1, h2]
  rfl

theorem description_cycling (dateText : String) :
    Workout._setDescription "cycling" dateText = "Cycling on " ++ dateText := by
  have h1 : ("cycling".get 0).toUpper.toString = "C" := by decide
  have h2 : "cycling".drop 1 = "ycling" := by decide
  simp only [Workout._setDescription, h1, h2]
  rfl

/-! ## Lemmas on the submit handler -/

theorem toJsonElems_append (xs ys : List JSVal) :
    JSVal.toJsonElems (xs ++ ys) = JSVal.toJsonElems xs ++ JSVal.toJsonElems ys := by
  induction xs with
  | nil => simp [JSVal.toJsonElems]
  | cons x xs ih => simp [JSVal.toJsonElems, ih]

theorem pushWorkout_workouts (s : App) (w : JSVal) :
    (App.pushWorkout s w).1.workouts = s.workouts ++ [w] := by
  unfold App.pushWorkout App._renderEntry App._renderMarker App._hideForm App._setLocalStorage
  cases w.isNullish <;> cases s.map <;> simp

theorem pushWorkout_storage (s : App) (w : JSVal) :
    (App.pushWorkout s w).1.storage = some (JSVal.toJsonElems (s.workouts ++ [w])) := by
  unfold App.pushWorkout App._renderEntry App._renderMarker App._hideForm App._setLocalStorage
  cases w.isNullish <;> cases s.map <;> simp

theorem pushWorkout_alerts (s : App) (w : JSVal) :
    (App.pushWorkout s w).1.alerts = s.alerts := by
  unfold App.pushWorkout App._renderEntry App._renderMarker App._hideForm App._setLocalStorage
  cases w.isNullish <;> cases s.map <;> simp

theorem newWorkout_running (c : Clock) (s : App) (ht : s.inputs.type = "running")
    (hd : s.inputs.distance.gtZero = true) (hu : s.inputs.duration.gtZero = true)
    (hc : s.inputs.cadence.gtZero = true) :
    App._newWorkout c s = App.pushWorkout s
      (Running.new c s.clickCoords s.inputs.distance s.inputs.duration s.inputs.cadence) := by
  simp [App._newWorkout, ht, hd, hu, hc]

theorem newWorkout_cycling (c : Clock) (s : App) (ht : s.inputs.type = "cycling")
    (hd : s.inputs.distance.gtZero = true) (hu : s.inputs.duration.gtZero = true)
    (he : s.inputs.elevation.isFinite = true) :
    App._newWorkout c s = App.pushWorkout s
      (Cycling.new c s.clickCoords s.inputs.distance s.inputs.duration s.inputs.elevation) := by
  simp [App._newWorkout, ht, hd, hu, he]

theorem newWorkout_rejected (c : Clock) (s : App)
    (h : (s.inputs.type = "running" ∧ (s.inputs.distance.gtZero = false ∨
            s.inputs.duration.gtZero = false ∨ s.inputs.cadence.gtZero = false))
       ∨ (s.inputs.type = "cycling" ∧ (s.inputs.distance.gtZero = false ∨
            s.inputs.duration.gtZero = false ∨ s.inputs.elevation.isFinite = false))) :
    ∃ notice, App._newWorkout c s = ({ s with alerts := s.alerts ++ [notice] }, Outcome.ok) := by
  rcases h with ⟨ht, h⟩ | ⟨ht, h⟩
  · refine ⟨"Inputs have to be positive numbers", ?_⟩
    rcases h with h | h | h <;> simp [App._newWorkout, ht, h]
  · by_cases hp : (s.inputs.distance.gtZero && s.inputs.duration.gtZero) = true
    · refine ⟨"Elevation have to a number", ?_⟩
      rcases h with h | h | h
      · simp [h] at hp
      · simp [h] at hp
      · simp at hp
        simp [App._newWorkout, ht, h, hp]
    · refine ⟨"Distance and duration have to be positive numbers", ?_⟩
      simp at hp
      by_cases hd : s.inputs.distance.gtZero = true
      · simp [App._newWorkout, ht, hd, hp hd]
      · simp at hd
        simp [App._newWorkout, ht, hd]

theorem newest_pushWorkout (s : App) (w : JSVal) : (App.pushWorkout s w).1.newest = w := by
  simp [App.newest, pushWorkout_workouts]

/-! ## Submitting the form -/

/-- C1: a submission of type running or cycling that passes validation appends exactly one
workout at the end of the store; that workout carries the pending coordinate pair and the
submitted distance and duration; the snapshot written to storage is the serialization of the
whole new store, the earlier entries in their order followed by the new one. -/
theorem newWorkout_appends_and_saves (c : Clock) (s : App)
    (hvalid :
      (s.inputs.type = "running" ∧ s.inputs.distance.gtZero = true ∧
        s.inputs.duration.gtZero = true ∧ s.inputs.cadence.gtZero = true)
      ∨ (s.inputs.type = "cycling" ∧ s.inputs.distance.gtZero = true ∧
        s.inputs.duration.gtZero = true ∧ s.inputs.elevation.isFinite = true)) :
    (App._newWorkout c s).1.workouts = s.workouts ++ [(App._newWorkout c s).1.newest]
      ∧ (App._newWorkout c s).1.newest.isNullish = false
      ∧ (App._newWorkout c s).1.newest.get "coords" = s.clickCoords
      ∧ (App._newWorkout c s).1.newest.get "distance" = JSVal.num s.inputs.distance
      ∧ (App._newWorkout c s).1.newest.get "duration" = JSVal.num s.inputs.duration
      ∧ (App._newWorkout c s).1.storage
          = some (JSVal.toJsonElems (App._newWorkout c s).1.workouts)
      ∧ JSVal.toJsonElems (App._newWorkout c s).1.workouts
          = JSVal.toJsonElems s.workouts
            ++ JSVal.toJsonElems [(App._newWorkout c s).1.newest] := by
  rcases hvalid with ⟨ht, hd, hu, hc⟩ | ⟨ht, hd, hu, he⟩
  · rw [newWorkout_running c s ht hd hu hc]
    simp [newest_pushWorkout, pushWorkout_workouts, pushWorkout_storage, toJsonElems_append,
      Running.new, Workout.new, JSVal.get, JSVal.lookup, JSVal.isNullish]
  · rw [newWorkout_cycling c s ht hd hu he]
    simp [newest_pushWorkout, pushWorkout_workouts, pushWorkout_storage, toJsonElems_append,
      Cycling.new, Workout.new, JSVal.get, JSVal.lookup, JSVal.isNullish]

theorem newWorkout_appends_and_saves_witness :
    scenarioRunDone.workouts = scenarioRun.workouts ++ [scenarioRunDone.newest]
      ∧ scenarioRunDone.newest.isNullish = false
      ∧ scenarioRunDone.newest.get "coords" = scenarioRun.clickCoords
      ∧ scenarioRunDone.newest.get "distance" = JSVal.num scenarioRun.inputs.distance
      ∧ scenarioRunDone.newest.get "duration" = JSVal.num scenarioRun.inputs.duration
      ∧ scenarioRunDone.storage = some (JSVal.toJsonElems scenarioRunDone.workouts)
      ∧ JSVal.toJsonElems scenarioRunDone.workouts
          = JSVal.toJsonElems scenarioRun.workouts
            ++ JSVal.toJsonElems [scenarioRunDone.newest] :=
  newWorkout_appends_and_saves scenarioClock scenarioRun
    (Or.inl ⟨rfl, by decide, by decide, by decide⟩)

/-- C2, at an input: a run whose distance is `Infinity` is not finite and is accepted, the
workout is constructed and appended to the empty store, and no notice is raised. -/
theorem infinite_distance_is_accepted :
    scenarioEndlessRun.inputs.distance.isFinite = false
      ∧ scenarioEndlessRun.workouts = []
      ∧ (App._newWorkout scenarioClock scenarioEndlessRun).1.workouts
          = [Running.new scenarioClock scenarioEndlessRun.clickCoords JSNum.posInf
              (JSNum.fin 25) (JSNum.fin 150)]
      ∧ (App._newWorkout scenarioClock scenarioEndlessRun).1.alerts = [] := by
  have h := newWorkout_running scenarioClock scenarioEndlessRun rfl (by decide) (by decide)
    (by decide)
  refine ⟨rfl, rfl, ?_, ?_⟩
  · rw [h, pushWorkout_workouts]; rfl
  · rw [h, pushWorkout_alerts]; rfl

/-- C2, amended: for a submission of type running or cycling, if distance or duration is
not greater than zero (zero, negative, `NaN` or `-Infinity`), the submission is rejected:
the store and the snapshot stay as they were and a notice is raised. -/
theorem nonpositive_is_rejected (c : Clock) (s : App)
    (htype : s.inputs.type = "running" ∨ s.inputs.type = "cycling")
    (hbad : s.inputs.distance.gtZero = false ∨ s.inputs.duration.gtZero = false) :
    (App._newWorkout c s).1.workouts = s.workouts
      ∧ (App._newWorkout c s).1.storage = s.storage
      ∧ (App._newWorkout c s).1.alerts.length = s.alerts.length + 1 := by
  have h : ∃ notice, App._newWorkout c s
      = ({ s with alerts := s.alerts ++ [notice] }, Outcome.ok) := by
    apply newWorkout_rejected
    rcases htype with ht | ht
    · exact Or.inl ⟨ht, by rcases hbad with h | h <;> simp [h]⟩
    · exact Or.inr ⟨ht, by rcases hbad with h | h <;> simp [h]⟩
  obtain ⟨notice, h⟩ := h
  simp [h]

theorem nonpositive_is_rejected_witness :
    (App._newWorkout scenarioClock scenarioZeroRun).1.workouts = scenarioZeroRun.workouts
      ∧ (App._newWorkout scenarioClock scenarioZeroRun).1.storage = scenarioZeroRun.storage
      ∧ (App._newWorkout scenarioClock scenarioZeroRun).1.alerts.length
          = scenarioZeroRun.alerts.length + 1 :=
  nonpositive_is_rejected scenarioClock scenarioZeroRun (Or.inl rfl) (Or.inl (by decide))

/-- C3: a submission that fails validation (distance `<= 0`, or duration `<= 0`, or cadence
`<= 0` for a run, or an elevation that is not finite for a ride) leaves the state as it was,
apart from the notice it raises: the store, the snapshot, the pending coordinate pair and the
visibility of the form are the same, so a form that was open is still open. -/
theorem failed_validation_changes_nothing (c : Clock) (s : App)
    (hfail :
      (s.inputs.type = "running" ∧ (s.inputs.distance.leZero = true ∨
          s.inputs.duration.leZero = true ∨ s.inputs.cadence.leZero = true))
      ∨ (s.inputs.type = "cycling" ∧ (s.inputs.distance.leZero = true ∨
          s.inputs.duration.leZero = true ∨ s.inputs.elevation.isFinite = false))) :
    App._newWorkout c s = ({ s with alerts := (App._newWorkout c s).1.alerts }, Outcome.ok)
      ∧ (App._newWorkout c s).1.workouts = s.workouts
      ∧ (App._newWorkout c s).1.storage = s.storage
      ∧ (App._newWorkout c s).1.clickCoords = s.clickCoords
      ∧ (App._newWorkout c s).1.formHidden = s.formHidden := by
  have h : ∃ notice, App._newWorkout c s
      = ({ s with alerts := s.alerts ++ [notice] }, Outcome.ok) := by
    apply newWorkout_rejected
    rcases hfail with ⟨ht, h⟩ | ⟨ht, h⟩
    · refine Or.inl ⟨ht, ?_⟩
      rcases h with h | h | h
      · exact Or.inl (gtZero_of_leZero _ h)
      · exact Or.inr (Or.inl (gtZero_of_leZero _ h))
      · exact Or.inr (Or.inr (gtZero_of_leZero _ h))
    · refine Or.inr ⟨ht, ?_⟩
      rcases h with h | h | h
      · exact Or.inl (gtZero_of_leZero _ h)
      · exact Or.inr (Or.inl (gtZero_of_leZero _ h))
      · exact Or.inr (Or.inr h)
  obtain ⟨notice, h⟩ := h
  simp [h]

theorem failed_validation_changes_nothing_witness :
    scenarioNoCadence.formHidden = false
      ∧ App._newWorkout scenarioClock scenarioNoCadence
          = ({ scenarioNoCadence with
                alerts := (App._newWorkout scenarioClock scenarioNoCadence).1.alerts },
              Outcome.ok)
      ∧ (App._newWorkout scenarioClock scenarioNoCadence).1.workouts
          = scenarioNoCadence.workouts
      ∧ (App._newWorkout scenarioClock scenarioNoCadence).1.storage
          = scenarioNoCadence.storage
      ∧ (App._newWorkout scenarioClock scenarioNoCadence).1.clickCoords
          = scenarioNoCadence.clickCoords
      ∧ (App._newWorkout scenarioClock scenarioNoCadence).1.formHidden
          = scenarioNoCadence.formHidden :=
  ⟨rfl, failed_validation_changes_nothing scenarioClock scenarioNoCadence
    (Or.inl ⟨rfl, Or.inr (Or.inr (by decide))⟩)⟩

/-! ## The derived metrics -/

/-- C5: for all positive distance, duration and cadence, the constructor of `Running` sets
`pace` to `duration / distance` rounded to one decimal place, where `/` is the quotient of
the language (rounded to binary64, an infinity on overflow), and sets a description that is
not empty and contains "Running". -/
theorem running_pace_and_description (c : Clock) (coords : JSVal) (d t cad : ℚ)
    (hd : 0 < d) (ht : 0 < t) (_hc : 0 < cad) :
    (Running.new c coords (JSNum.fin d) (JSNum.fin t) (JSNum.fin cad)).get "pace"
        = JSVal.num (round1 (JSNum.div (JSNum.fin t) (JSNum.fin d)))
      ∧ (Running.new c coords (JSNum.fin d) (JSNum.fin t) (JSNum.fin cad)).get "description"
        = JSVal.str (Workout._setDescription "running" c.dateText)
      ∧ Workout._setDescription "running" c.dateText ≠ ""
      ∧ "Running".data <:+: (Workout._setDescription "running" c.dateText).data := by
  refine ⟨?_, ?_, ?_, ?_⟩
  · have h : JSNum.toFixed1 (JSNum.div (JSNum.fin t) (JSNum.fin d))
        = round1 (JSNum.div (JSNum.fin t) (JSNum.fin d)) := by
      rw [div_fin_ne_zero _ _ hd.ne']
      exact toFixed1_binary64 _ (div_pos ht hd).le
    simp [Running.new, Workout.new, JSVal.get, JSVal.lookup, Running._setPace, h]
  · simp [Running.new, Workout.new, JSVal.get, JSVal.lookup]
  · rw [description_running]
    intro h
    have := congrArg String.length h
    simp at this
    exact absurd this.1 (by decide)
  · rw [description_running]
    refine ⟨[], (" on " ++ c.dateText).data, ?_⟩
    simp

theorem running_pace_and_description_witness :
    round1 (JSNum.div (JSNum.fin 25) (JSNum.fin 5)) = JSNum.fin 5
      ∧ (Running.new scenarioClock JSVal.undefined (JSNum.fin 5) (JSNum.fin 25)
          (JSNum.fin 150)).get "pace"
          = JSVal.num (round1 (JSNum.div (JSNum.fin 25) (JSNum.fin 5)))
      ∧ (Running.new scenarioClock JSVal.undefined (JSNum.fin 5) (JSNum.fin 25)
          (JSNum.fin 150)).get "description"
          = JSVal.str (Workout._setDescription "running" scenarioClock.dateText)
      ∧ Workout._setDescription "running" scenarioClock.dateText ≠ ""
      ∧ "Running".data <:+: (Workout._setDescription "running" scenarioClock.dateText).data :=
  ⟨by
      have h := div_whole 25 5 5 (by norm_num) (by norm_num) (by norm_num) (by norm_num)
      have h5 := round1_intCast 5 (by norm_num) (by norm_num)
      rw [h]
      simpa using h5,
    running_pace_and_description scenarioClock JSVal.undefined 5 25 150 (by norm_num)
      (by norm_num) (by norm_num)⟩

/-- C6: for positive distance and duration and every finite elevation, of any sign, a
cycling submission is accepted: one workout is appended and no notice is raised; the workout
keeps the given elevation and its `speed` is `distance / (duration / 60)` rounded to one
decimal place, where `/` is the quotient of the language (rounded to binary64). -/
theorem cycling_accepts_any_finite_elevation (c : Clock) (s : App) (d t e : ℚ)
    (htype : s.inputs.type = "cycling")
    (hdist : s.inputs.distance = JSNum.fin d) (hdur : s.inputs.duration = JSNum.fin t)
    (helev : s.inputs.elevation = JSNum.fin e)
    (hd : 0 < d) (ht : 0 < t) :
    (App._newWorkout c s).1.workouts = s.workouts ++ [(App._newWorkout c s).1.newest]
      ∧ (App._newWorkout c s).1.alerts = s.alerts
      ∧ (App._newWorkout c s).1.newest.get "type" = JSVal.str "cycling"
      ∧ (App._newWorkout c s).1.newest.get "elevation" = JSVal.num (JSNum.fin e)
      ∧ (App._newWorkout c s).1.newest.get "speed"
          = JSVal.num (round1 (JSNum.div (JSNum.fin d)
              (JSNum.div (JSNum.fin t) (JSNum.fin 60)))) := by
  have hspeed : JSNum.toFixed1 (JSNum.div (JSNum.fin d)
        (JSNum.div (JSNum.fin t) (JSNum.fin 60)))
      = round1 (JSNum.div (JSNum.fin d) (JSNum.div (JSNum.fin t) (JSNum.fin 60))) := by
    rw [div_fin_ne_zero t 60 (by norm_num)]
    have h60 : (0 : ℚ) ≤ t / 60 := by positivity
    cases hu : JSNum.binary64 (t / 60) with
    | fin u =>
      have hu0 : 0 ≤ u := binary64_nonneg _ u h60 hu
      rcases eq_or_lt_of_le hu0 with h0 | hpos
      · rw [← h0]
        simp [JSNum.div, hd.ne', hd, JSNum.toFixed1, round1]
      · rw [div_fin_ne_zero d u hpos.ne']
        exact toFixed1_binary64 _ (div_pos hd hpos).le
    | nan => rfl
    | posInf =>
      have hz : JSNum.div (JSNum.fin d) JSNum.posInf = JSNum.fin 0 := rfl
      rw [hz]
      exact toFixed1_fin_eq_round1 0 le_rfl (fun h => absurd h (by norm_num))
    | negInf => exact absurd hu (binary64_ne_negInf _ h60)
  rw [newWorkout_cycling c s htype (by simp [hdist, JSNum.gtZero, hd])
    (by simp [hdur, JSNum.gtZero, ht]) (by simp [helev, JSNum.isFinite])]
  simp [newest_pushWorkout, pushWorkout_workouts, pushWorkout_alerts, Cycling.new, Workout.new,
    JSVal.get, JSVal.lookup, Cycling._setSpeed, hdist, hdur, helev, hspeed]

theorem cycling_accepts_any_finite_elevation_witness :
    round1 (JSNum.div (JSNum.fin 20) (JSNum.div (JSNum.fin 60) (JSNum.fin 60)))
        = JSNum.fin 20
      ∧ (App._newWorkout scenarioClock scenarioRide).1.workouts
          = scenarioRide.workouts ++ [(App._newWorkout scenarioClock scenarioRide).1.newest]
      ∧ (App._newWorkout scenarioClock scenarioRide).1.alerts = scenarioRide.alerts
      ∧ (App._newWorkout scenarioClock scenarioRide).1.newest.get "type" = JSVal.str "cycling"
      ∧ (App._newWorkout scenarioClock scenarioRide).1.newest.get "elevation"
          = JSVal.num (JSNum.fin (-5))
      ∧ (App._newWorkout scenarioClock scenarioRide).1.newest.get "speed"
          = JSVal.num (round1 (JSNum.div (JSNum.fin 20)
              (JSNum.div (JSNum.fin 60) (JSNum.fin 60)))) :=
  ⟨by
      have h1 := div_whole 60 60 1 (by norm_num) (by norm_num) (by norm_num) (by norm_num)
      have h2 := div_whole 20 1 20 (by norm_num) (by norm_num) (by norm_num) (by norm_num)
      have h20 := round1_intCast 20 (by norm_num) (by norm_num)
      simp only [Int.cast_one, Int.cast_ofNat] at h1 h2 h20
      rw [h1, h2]
      exact h20,
    cycling_accepts_any_finite_elevation scenarioClock scenarioRide 20 60 (-5) rfl rfl rfl rfl
      (by norm_num) (by norm_num)⟩

/-! ## Identifiers -/

theorem toDigitsCore_eq (fuel : Nat) : ∀ (n : Nat) (ds : List Char), 0 < n → n < fuel →
    Nat.toDigitsCore 10 fuel n ds = ((Nat.digits 10 n).map Nat.digitChar).reverse ++ ds := by
  induction fuel with
  | zero => intro n ds _ h; omega
  | succ fuel ih =>
    intro n ds hn hf
    rw [Nat.digits_def' (by norm_num) hn]
    by_cases h0 : n / 10 = 0
    · simp [Nat.toDigitsCore, h0]
    · have hlt : n / 10 < fuel := by omega
      simp [Nat.toDigitsCore, h0, ih (n / 10) _ (Nat.pos_of_ne_zero h0) hlt]

theorem toDigits_eq (n : Nat) :
    Nat.toDigits 10 n = ((decimalDigits n).map Nat.digitChar).reverse := by
  by_cases h : n = 0
  · subst h; rfl
  · rw [Nat.toDigits, toDigitsCore_eq _ _ _ (Nat.pos_of_ne_zero h) (Nat.lt_succ_self n)]
    simp [decimalDigits, h]

theorem decimalDigits_lt (n d : Nat) (h : d ∈ decimalDigits n) : d < 10 := by
  unfold decimalDigits at h
  split at h
  · simp at h; omega
  · exact Nat.digits_lt_base (by norm_num) h

theorem ofDigits_decimalDigits (n : Nat) : Nat.ofDigits 10 (decimalDigits n) = n := by
  unfold decimalDigits
  split
  · next h => subst h; rfl
  · exact Nat.ofDigits_digits 10 n

theorem ofDigits_take (k : Nat) : ∀ (ds : List Nat), (∀ d ∈ ds, d < 10) →
    Nat.ofDigits 10 (ds.take k) = Nat.ofDigits 10 ds % 10 ^ k := by
  induction k with
  | zero => intro ds _; simp [Nat.mod_one]
  | succ k ih =>
    intro ds hds
    cases ds with
    | nil => simp
    | cons d ds =>
      have hd : d < 10 := hds d (List.mem_cons_self _ _)
      have ih' := ih ds (fun x hx => hds x (List.mem_cons_of_mem _ hx))
      simp only [List.take_succ_cons, Nat.ofDigits_cons, ih']
      set X := Nat.ofDigits 10 ds
      have hp : 0 < 10 ^ k := by positivity
      have hX : X % 10 ^ k < 10 ^ k := Nat.mod_lt _ hp
      have hdecomp : d + 10 * X = (d + 10 * (X % 10 ^ k)) + 10 ^ (k + 1) * (X / 10 ^ k) := by
        have := Nat.div_add_mod X (10 ^ k)
        rw [pow_succ]
        nlinarith
      have hlt : d + 10 * (X % 10 ^ k) < 10 ^ (k + 1) := by
        rw [pow_succ]; omega
      rw [hdecomp, Nat.add_mul_mod_self_left, Nat.mod_eq_of_lt hlt]

theorem digitChar_inj : ∀ a < 10, ∀ b < 10, Nat.digitChar a = Nat.digitChar b → a = b := by
  decide

theorem map_digitChar_inj : ∀ (xs ys : List Nat), (∀ d ∈ xs, d < 10) → (∀ d ∈ ys, d < 10) →
    xs.map Nat.digitChar = ys.map Nat.digitChar → xs = ys := by
  intro xs
  induction xs with
  | nil => intro ys _ _ h; cases ys <;> simp_all
  | cons x xs ih =>
    intro ys hx hy h
    cases ys with
    | nil => simp at h
    | cons y ys =>
      simp only [List.map_cons, List.cons.injEq] at h
      have h1 := digitChar_inj x (hx x (List.mem_cons_self _ _)) y
        (hy y (List.mem_cons_self _ _)) h.1
      have h2 := ih ys (fun d hd => hx d (List.mem_cons_of_mem _ hd))
        (fun d hd => hy d (List.mem_cons_of_mem _ hd)) h.2
      rw [h1, h2]

theorem id_data (n : Nat) :
    (Workout.id n).data = (((decimalDigits n).take 10).map Nat.digitChar).reverse := by
  simp only [Workout.id, sliceLast, numberToString, toDigits_eq]
  rw [List.map_take, List.reverse_take]
  simp

/-- Two creation times with the same id agree in their last ten decimal digits. -/
theorem id_eq_imp_mod_eq (a b : Nat) (h : Workout.id a = Workout.id b) :
    a % 10 ^ 10 = b % 10 ^ 10 := by
  have h1 := congrArg String.data h
  rw [id_data, id_data, List.reverse_inj] at h1
  have h2 := map_digitChar_inj _ _
    (fun d hd => decimalDigits_lt a d (List.mem_of_mem_take hd))
    (fun d hd => decimalDigits_lt b d (List.mem_of_mem_take hd)) h1
  have h3 := congrArg (Nat.ofDigits 10) h2
  rw [ofDigits_take 10 _ (decimalDigits_lt a), ofDigits_take 10 _ (decimalDigits_lt b),
    ofDigits_decimalDigits, ofDigits_decimalDigits] at h3
  exact h3

/-! ## Sequences of submissions -/

theorem passes_cases (i : Inputs) (h : i.passes = true) :
    (i.type = "running" ∧ i.distance.gtZero = true ∧ i.duration.gtZero = true ∧
        i.cadence.gtZero = true)
      ∨ (i.type = "cycling" ∧ i.distance.gtZero = true ∧ i.duration.gtZero = true ∧
        i.elevation.isFinite = true) := by
  simp only [Inputs.passes, Bool.or_eq_true, Bool.and_eq_true, beq_iff_eq] at h
  rcases h with ⟨⟨⟨a, b⟩, c⟩, d⟩ | ⟨⟨⟨a, b⟩, c⟩, d⟩
  · exact Or.inl ⟨a, b, c, d⟩
  · exact Or.inr ⟨a, b, c, d⟩

theorem submit_eq (s : App) (x : Submission) (h : x.inputs.passes = true) :
    (s.submit x).workouts = s.workouts ++ [x.workout s.clickCoords]
      ∧ (s.submit x).clickCoords = x.pending s.clickCoords
      ∧ (s.submit x).storage
          = some (JSVal.toJsonElems (s.workouts ++ [x.workout s.clickCoords]))
      ∧ (s.submit x).map = (match s.map with
          | none => none
          | some m => some { m with markers := m.markers ++
              [{ coords := (x.workout s.clickCoords).get "coords",
                 type := (x.workout s.clickCoords).get "type",
                 description := (x.workout s.clickCoords).get "description" }] }) := by
  obtain ⟨click, inputs, clock⟩ := x
  have hc := passes_cases inputs h
  rcases hc with ⟨ht, hd, hu, hc⟩ | ⟨ht, hd, hu, he⟩
  · have hw : ∀ before, Submission.workout ⟨click, inputs, clock⟩ before
        = Running.new clock (Submission.pending ⟨click, inputs, clock⟩ before)
            inputs.distance inputs.duration inputs.cadence := by
      intro before; simp [Submission.workout, ht]
    cases click with
    | none =>
      simp only [App.submit, hw]
      rw [newWorkout_running _ _ ht hd hu hc]
      unfold App.pushWorkout App._renderEntry App._renderMarker App._hideForm
        App._setLocalStorage
      cases hm : s.map <;>
        simp [App.fillForm, Submission.pending, Running.new, JSVal.isNullish, hm]
    | some p =>
      obtain ⟨lat, lng⟩ := p
      simp only [App.submit, hw]
      rw [newWorkout_running _ _ ht hd hu hc]
      unfold App.pushWorkout App._renderEntry App._renderMarker App._hideForm
        App._setLocalStorage
      cases hm : s.map <;>
        simp [App.fillForm, App.mapClick, App._showForm, Submission.pending, Running.new,
          JSVal.isNullish, hm]
  · have hne : inputs.type ≠ "running" := by rw [ht]; decide
    have hw : ∀ before, Submission.workout ⟨click, inputs, clock⟩ before
        = Cycling.new clock (Submission.pending ⟨click, inputs, clock⟩ before)
            inputs.distance inputs.duration inputs.elevation := by
      intro before; simp [Submission.workout, hne]
    cases click with
    | none =>
      simp only [App.submit, hw]
      rw [newWorkout_cycling _ _ ht hd hu he]
      unfold App.pushWorkout App._renderEntry App._renderMarker App._hideForm
        App._setLocalStorage
      cases hm : s.map <;>
        simp [App.fillForm, Submission.pending, Cycling.new, JSVal.isNullish, hm]
    | some p =>
      obtain ⟨lat, lng⟩ := p
      simp only [App.submit, hw]
      rw [newWorkout_cycling _ _ ht hd hu he]
      unfold App.pushWorkout App._renderEntry App._renderMarker App._hideForm
        App._setLocalStorage
      cases hm : s.map <;>
        simp [App.fillForm, App.mapClick, App._showForm, Submission.pending, Cycling.new,
          JSVal.isNullish, hm]

theorem workout_get_id (x : Submission) (before : JSVal) :
    (x.workout before).get "id" = JSVal.str (Workout.id x.clock.now) := by
  unfold Submission.workout
  split <;> simp [Running.new, Cycling.new, Workout.new, JSVal.get, JSVal.lookup]

theorem submitAll_ids (xs : List Submission) : ∀ (s : App),
    (∀ x ∈ xs, x.inputs.passes = true) →
    (s.submitAll xs).workouts.map (fun w => w.get "id")
      = s.workouts.map (fun w => w.get "id")
        ++ xs.map (fun x => JSVal.str (Workout.id x.clock.now)) := by
  induction xs with
  | nil => intro s _; simp [App.submitAll]
  | cons x xs ih =>
    intro s h
    have hx := h x (List.mem_cons_self _ _)
    have ih' := ih (s.submit x) (fun y hy => h y (List.mem_cons_of_mem _ hy))
    simp only [App.submitAll, List.foldl_cons] at ih' ⊢
    rw [ih', (submit_eq s x hx).1]
    simp [workout_get_id]

/-- C10, at an input: two successful submissions whose creation times differ by `10^10`
milliseconds get the same id, so the ids held in the store are not pairwise distinct. -/
theorem ids_collide_ten_digits_apart :
    (collidingPair.map fun x => x.clock.now) = [1700000000000, 1710000000000]
      ∧ (∀ x ∈ collidingPair, x.inputs.passes = true)
      ∧ ((App.fresh none).submitAll collidingPair).workouts.map (fun w => w.get "id")
          = [JSVal.str "0000000000", JSVal.str "0000000000"]
      ∧ ¬ (((App.fresh none).submitAll collidingPair).workouts.map
            (fun w => w.get "id")).Nodup := by
  have hp : ∀ x ∈ collidingPair, x.inputs.passes = true := by
    intro x hx
    simp only [collidingPair, List.mem_cons, List.mem_singleton, List.not_mem_nil,
      or_false] at hx
    rcases hx with rfl | rfl <;> decide
  have hids := submitAll_ids collidingPair (App.fresh none) hp
  have h1 : Workout.id 1700000000000 = "0000000000" := by decide
  have h2 : Workout.id 1710000000000 = "0000000000" := by decide
  have hval : ((App.fresh none).submitAll collidingPair).workouts.map (fun w => w.get "id")
      = [JSVal.str "0000000000", JSVal.str "0000000000"] := by
    rw [hids]
    simp [collidingPair, App.fresh, h1, h2]
  refine ⟨rfl, hp, hval, ?_⟩
  rw [hval]
  simp

/-- C10, amended: for every sequence of successful submissions, starting from an empty store,
whose creation times are pairwise distinct in their last ten decimal digits (pairwise
distinct modulo `10^10` milliseconds), the ids held in the store are pairwise distinct. -/
theorem ids_distinct_of_distinct_times (xs : List Submission)
    (hpass : ∀ x ∈ xs, x.inputs.passes = true)
    (htimes : (xs.map fun x => x.clock.now % 10 ^ 10).Nodup) :
    (((App.fresh none).submitAll xs).workouts.map fun w => w.get "id").Nodup := by
  rw [submitAll_ids xs (App.fresh none) hpass]
  simp only [App.fresh, List.map_nil, List.nil_append]
  have hinj := List.inj_on_of_nodup_map htimes
  apply List.Nodup.map_on _ (List.Nodup.of_map _ htimes)
  intro x hx y hy hxy
  apply hinj hx hy
  apply id_eq_imp_mod_eq
  simpa using hxy

theorem ids_distinct_of_distinct_times_witness :
    (((App.fresh none).submitAll distinctPair).workouts.map fun w => w.get "id").Nodup :=
  ids_distinct_of_distinct_times distinctPair
    (by
      intro x hx
      simp only [distinctPair, List.mem_cons, List.mem_singleton, List.not_mem_nil,
        or_false] at hx
      rcases hx with rfl | rfl <;> decide)
    (by simp [distinctPair])

/-! ## Selecting a list entry -/

theorem findById_of_nodup (id : String) (w : JSVal) (hid : w.get "id" = JSVal.str id) :
    ∀ (ws : List JSVal) (i : Nat), ws[i]? = some w →
      (∀ v ∈ ws, v.isNullish = false) → (ws.map fun v => v.get "id").Nodup →
      App.findById id ws = some w := by
  intro ws
  induction ws with
  | nil => intro i h; simp at h
  | cons v vs ih =>
    intro i hi hall hnd
    have hv : v.isNullish = false := hall v (List.mem_cons_self _ _)
    cases i with
    | zero =>
      simp only [List.getElem?_cons_zero, Option.some.injEq] at hi
      subst hi
      simp [App.findById, hv, hid]
    | succ i =>
      simp only [List.getElem?_cons_succ] at hi
      have hmem : w ∈ vs := List.getElem?_mem hi
      simp only [List.map_cons, List.nodup_cons, List.mem_map, not_exists, not_and] at hnd
      have hne : v.get "id" ≠ JSVal.str id := fun h => hnd.1 w hmem (by rw [hid, h])
      have hrec := ih i hi (fun u hu => hall u (List.mem_cons_of_mem _ hu)) hnd.2
      unfold App.findById
      simp only [hv, Bool.false_eq_true, if_false]
      split
      · next j hj =>
        have : j ≠ id := fun h => hne (by rw [hj, h])
        simp [this, hrec]
      · exact hrec

theorem findById_stale (id : String) : ∀ (ws : List JSVal),
    (∀ v ∈ ws, v.isNullish = false) → (∀ v ∈ ws, v.get "id" ≠ JSVal.str id) →
    App.findById id ws = some JSVal.undefined := by
  intro ws
  induction ws with
  | nil => intro _ _; rfl
  | cons v vs ih =>
    intro hall hne
    have hv : v.isNullish = false := hall v (List.mem_cons_self _ _)
    have hrec := ih (fun u hu => hall u (List.mem_cons_of_mem _ hu))
      (fun u hu => hne u (List.mem_cons_of_mem _ hu))
    unfold App.findById
    simp only [hv, Bool.false_eq_true, if_false]
    split
    · next j hj =>
      have : j ≠ id := fun h => hne v (List.mem_cons_self _ _) (by rw [hj, h])
      simp [this, hrec]
    · exact hrec

/-- For every store of workouts and every id that none of them has, with the map initialized,
`_movetoMarker` is cut short by a `TypeError`; no focus request is issued and the state is as
it was. -/
theorem movetoMarker_stale (s : App) (m : LMap) (id : String) (hmap : s.map = some m)
    (hall : ∀ v ∈ s.workouts, v.isNullish = false)
    (hne : ∀ v ∈ s.workouts, v.get "id" ≠ JSVal.str id) :
    s._movetoMarker (some id) = (s, Outcome.typeError) := by
  simp [App._movetoMarker, hmap, findById_stale id s.workouts hall hne, JSVal.isNullish]

/-- C8, at an input: two stored workouts at different places share the id `0000000000`;
selecting the second entry by its id sends the map to the coordinates of the first. -/
theorem select_second_focuses_first :
    scenarioCollided.workouts.map (fun w => w.get "id")
        = [JSVal.str "0000000000", JSVal.str "0000000000"]
      ∧ scenarioCollided.workouts.map (fun w => w.get "coords")
        = [JSVal.arr [JSVal.num (JSNum.fin 10), JSVal.num (JSNum.fin 20)],
           JSVal.arr [JSVal.num (JSNum.fin 30), JSVal.num (JSNum.fin 40)]]
      ∧ (scenarioCollided._movetoMarker (some "0000000000")).1.lastView
        = some { center := JSVal.arr [JSVal.num (JSNum.fin 10), JSVal.num (JSNum.fin 20)],
                 zoom := 15, animated := true }
      ∧ JSVal.arr [JSVal.num (JSNum.fin 10), JSVal.num (JSNum.fin 20)]
        ≠ JSVal.arr [JSVal.num (JSNum.fin 30), JSVal.num (JSNum.fin 40)] := by
  have h1 : Workout.id 1700000000000 = "0000000000" := by decide
  have h2 : Workout.id 1710000000000 = "0000000000" := by decide
  refine ⟨?_, ?_, ?_, ?_⟩
  · simp [scenarioCollided, scenarioMapReady, collidingPair, App.submitAll, App.submit,
      App.fillForm, App.mapClick, App._showForm, App._renderMap, App.renderMarkers, App.fresh,
      App._newWorkout, runInputs, JSNum.gtZero, App.pushWorkout, App._setLocalStorage,
      App._hideForm, App._renderEntry, App._renderMarker, Running.new, Workout.new,
      JSVal.isNullish, JSVal.get, JSVal.lookup, h1, h2]
  · simp [scenarioCollided, scenarioMapReady, collidingPair, App.submitAll, App.submit,
      App.fillForm, App.mapClick, App._showForm, App._renderMap, App.renderMarkers, App.fresh,
      App._newWorkout, runInputs, JSNum.gtZero, App.pushWorkout, App._setLocalStorage,
      App._hideForm, App._renderEntry, App._renderMarker, Running.new, Workout.new,
      JSVal.isNullish, JSVal.get, JSVal.lookup]
  · simp [scenarioCollided, scenarioMapReady, collidingPair, App.submitAll, App.submit,
      App.fillForm, App.mapClick, App._showForm, App._renderMap, App.renderMarkers, App.fresh,
      App._newWorkout, runInputs, JSNum.gtZero, App.pushWorkout, App._setLocalStorage,
      App._hideForm, App._renderEntry, App._renderMarker, Running.new, Workout.new,
      JSVal.isNullish, JSVal.get, JSVal.lookup, App._movetoMarker, App.findById,
      App.lastView, App.mapZoomLvl, h1, h2]
  · simp

/-- C8, amended: for every store of workouts whose ids are pairwise distinct, with the map
initialized, selecting the list entry of the workout at position `i` by its id makes the map
receive one focus request, for the coords of the workout at position `i`, at zoom level 15,
animated; nothing else in the state changes. -/
theorem select_focuses_selected (s : App) (i : Nat) (w : JSVal) (id : String)
    (hmap : s.map.isSome = true)
    (hall : ∀ v ∈ s.workouts, v.isNullish = false)
    (hdistinct : (s.workouts.map fun v => v.get "id").Nodup)
    (hi : s.workouts[i]? = some w) (hid : w.get "id" = JSVal.str id) :
    s._movetoMarker (some id)
        = ({ s with map := s.map.map fun m => { m with views := m.views ++
              [{ center := w.get "coords", zoom := 15, animated := true }] } }, Outcome.ok)
      ∧ (s._movetoMarker (some id)).1.lastView
        = some { center := w.get "coords", zoom := 15, animated := true } := by
  obtain ⟨m, hm⟩ := Option.isSome_iff_exists.mp hmap
  have hw : w.isNullish = false := hall w (List.getElem?_mem hi)
  have hfind := findById_of_nodup id w hid s.workouts i hi hall hdistinct
  have h : s._movetoMarker (some id)
      = ({ s with map := s.map.map fun m => { m with views := m.views ++
            [{ center := w.get "coords", zoom := 15, animated := true }] } },
          Outcome.ok) := by
    simp [App._movetoMarker, hm, hfind, hw, App.mapZoomLvl]
  refine ⟨h, ?_⟩
  rw [h]
  simp [App.lastView, hm]

theorem scenarioTwoRuns_eq :
    scenarioTwoRuns.workouts
        = [Running.new { now := 1700000000000, dateText := "November 14" }
            (JSVal.arr [JSVal.num (JSNum.fin 10), JSVal.num (JSNum.fin 20)])
            (JSNum.fin 5) (JSNum.fin 25) (JSNum.fin 150),
           Running.new { now := 1700000001000, dateText := "November 14" }
            (JSVal.arr [JSVal.num (JSNum.fin 30), JSVal.num (JSNum.fin 40)])
            (JSNum.fin 8) (JSNum.fin 40) (JSNum.fin 160)]
      ∧ scenarioTwoRuns.map.isSome = true := by
  constructor <;>
  simp [scenarioTwoRuns, scenarioMapReady, distinctPair, App.submitAll, App.submit,
    App.fillForm, App.mapClick, App._showForm, App._renderMap, App.renderMarkers, App.fresh,
    App._newWorkout, runInputs, JSNum.gtZero, App.pushWorkout, App._setLocalStorage,
    App._hideForm, App._renderEntry, App._renderMarker, Running.new, Workout.new,
    JSVal.isNullish]

theorem select_focuses_selected_witness :
    scenarioTwoRuns._movetoMarker (some "0000001000")
        = ({ scenarioTwoRuns with map := scenarioTwoRuns.map.map fun m =>
              { m with views := m.views ++
                [{ center := (Running.new { now := 1700000001000, dateText := "November 14" }
                      (JSVal.arr [JSVal.num (JSNum.fin 30), JSVal.num (JSNum.fin 40)])
                      (JSNum.fin 8) (JSNum.fin 40) (JSNum.fin 160)).get "coords",
                   zoom := 15, animated := true }] } }, Outcome.ok)
      ∧ (scenarioTwoRuns._movetoMarker (some "0000001000")).1.lastView
        = some { center := (Running.new { now := 1700000001000, dateText := "November 14" }
                    (JSVal.arr [JSVal.num (JSNum.fin 30), JSVal.num (JSNum.fin 40)])
                    (JSNum.fin 8) (JSNum.fin 40) (JSNum.fin 160)).get "coords",
                 zoom := 15, animated := true } :=
  select_focuses_selected scenarioTwoRuns 1 _ "0000001000" scenarioTwoRuns_eq.2
    (by rw [scenarioTwoRuns_eq.1]; simp [Running.new, JSVal.isNullish])
    (by
      have h1 : Workout.id 1700000000000 = "0000000000" := by decide
      have h2 : Workout.id 1700000001000 = "0000001000" := by decide
      rw [scenarioTwoRuns_eq.1]
      simp [Running.new, Workout.new, JSVal.get, JSVal.lookup, h1, h2])
    (by rw [scenarioTwoRuns_eq.1]; rfl)
    (by
      have h2 : Workout.id 1700000001000 = "0000001000" := by decide
      simp [Running.new, Workout.new, JSVal.get, JSVal.lookup, h2])

/-- C7, at an input: right after a click on the reset button the entry of the run is still
in the document, fading, while the store is empty and `#map` still holds the map; a click on
that entry is cut short by a `TypeError`. -/
theorem stale_entry_click_throws :
    scenarioCleared.entries.map (fun e => (e.dataId, e.fading))
        = [(JSVal.str "0000054321", true)]
      ∧ scenarioCleared.workouts = []
      ∧ scenarioCleared.map.isSome = true
      ∧ scenarioCleared._movetoMarker (some "0000054321")
        = (scenarioCleared, Outcome.typeError) := by
  have h1 : Workout.id 1700000054321 = "0000054321" := by decide
  have hw : scenarioCleared.workouts = [] := by
    simp [scenarioCleared, App._clearWorkouts, scenarioRunDone, scenarioRun, scenarioReady,
      App.fillForm, App.mapClick, App._showForm, App._renderMap, App.renderMarkers,
      App.fresh, App._newWorkout, runInputs, JSNum.gtZero, App.pushWorkout,
      App._setLocalStorage, App._hideForm, App._renderEntry, App._renderMarker, Running.new,
      Workout.new, JSVal.isNullish, App._getCurrentLocation]
  have hm : scenarioCleared.map.isSome = true := by
    simp [scenarioCleared, App._clearWorkouts, scenarioRunDone, scenarioRun, scenarioReady,
      App.fillForm, App.mapClick, App._showForm, App._renderMap, App.renderMarkers,
      App.fresh, App._newWorkout, runInputs, JSNum.gtZero, App.pushWorkout,
      App._setLocalStorage, App._hideForm, App._renderEntry, App._renderMarker, Running.new,
      Workout.new, JSVal.isNullish, App._getCurrentLocation]
  refine ⟨?_, hw, hm, ?_⟩
  · simp [scenarioCleared, App._clearWorkouts, scenarioRunDone, scenarioRun, scenarioReady,
      App.fillForm, App.mapClick, App._showForm, App._renderMap, App.renderMarkers,
      App.fresh, App._newWorkout, runInputs, JSNum.gtZero, App.pushWorkout,
      App._setLocalStorage, App._hideForm, App._renderEntry, App._renderMarker, Running.new,
      Workout.new, JSVal.isNullish, JSVal.get, JSVal.lookup, App._getCurrentLocation,
      scenarioClock, h1]
  · obtain ⟨m, hm'⟩ := Option.isSome_iff_exists.mp hm
    exact movetoMarker_stale scenarioCleared m "0000054321" hm' (by simp [hw]) (by simp [hw])

/-! ## Clearing -/

theorem clearWorkouts_live (geo : Bool) (s : App) (h : s.hasLiveMap = true) :
    (s._clearWorkouts geo).2 = Outcome.ok
      ∧ (s._clearWorkouts geo).1.workouts = []
      ∧ (s._clearWorkouts geo).1.storage = none
      ∧ (s._clearWorkouts geo).1.hasLiveMap = false := by
  unfold App.hasLiveMap at h
  cases hm : s.map with
  | none => simp [hm] at h
  | some m =>
    simp only [hm, Bool.not_eq_true'] at h
    cases geo <;>
      simp [App._clearWorkouts, App._getCurrentLocation, App.hasLiveMap, hm, h]

theorem clearWorkouts_keeps_empty (geo : Bool) (s : App) (hw : s.workouts = [])
    (hs : s.storage = none) :
    (s._clearWorkouts geo).1.workouts = [] ∧ (s._clearWorkouts geo).1.storage = none := by
  unfold App._clearWorkouts
  cases hm : s.map with
  | none => simp [hw, hs]
  | some m =>
    cases hr : m.removed <;> cases geo <;> simp [App._getCurrentLocation, hw, hs, hr]

theorem renderMap_empty (s : App) (lat lng : JSNum) (hw : s.workouts = []) :
    (App._renderMap s lat lng).1.hasLiveMap = true
      ∧ (App._renderMap s lat lng).1.workouts = []
      ∧ (App._renderMap s lat lng).1.storage = s.storage
      ∧ (App._renderMap s lat lng).2 = Outcome.ok := by
  simp [App._renderMap, App.renderMarkers, App.hasLiveMap, hw]

/-- A second call in a row is cut short by the error the widget throws. -/
theorem clear_in_a_row_error (s : App) (geo1 geo2 : Bool) (h : s.hasLiveMap = true) :
    ((s._clearWorkouts geo1).1._clearWorkouts geo2).2 = Outcome.mapError := by
  unfold App.hasLiveMap at h
  cases hm : s.map with
  | none => simp [hm] at h
  | some m =>
    simp only [hm, Bool.not_eq_true'] at h
    cases geo1 <;> simp [App._clearWorkouts, App._getCurrentLocation, hm, h]

/-- C9, at an input: after scenario A a map exists and the first `_clearWorkouts` runs to its
end; the second call in a row asks the widget to remove the map that the first call has
removed, and is cut short by the error the widget throws. -/
theorem clear_again_in_a_row_throws :
    scenarioRunDone.hasLiveMap = true
      ∧ (scenarioRunDone._clearWorkouts true).2 = Outcome.ok
      ∧ ((scenarioRunDone._clearWorkouts true).1._clearWorkouts true).2
          = Outcome.mapError := by
  have hlive : scenarioRunDone.hasLiveMap = true := by
    simp [scenarioRunDone, scenarioRun, scenarioReady, App.fillForm, App.mapClick,
      App._showForm, App._renderMap, App.renderMarkers, App.fresh, App._newWorkout,
      runInputs, JSNum.gtZero, App.pushWorkout, App._setLocalStorage, App._hideForm,
      App._renderEntry, App._renderMarker, Running.new, Workout.new, JSVal.isNullish,
      App.hasLiveMap]
  exact ⟨hlive, (clearWorkouts_live true _ hlive).1, clear_in_a_row_error _ true true hlive⟩

/-- C9, amended: from any state in which a map exists, `_clearWorkouts` completes and leaves
the store empty and no snapshot in storage. A second call leaves the store empty and the
snapshot absent, and it completes without error once the location has been acquired again
and a fresh map rendered. -/
theorem clear_and_clear_again (s : App) (geo : Bool) (lat lng : JSNum)
    (hmap : s.hasLiveMap = true) :
    (s._clearWorkouts true).2 = Outcome.ok
      ∧ (s._clearWorkouts true).1.workouts = []
      ∧ (s._clearWorkouts true).1.storage = none
      ∧ (((s._clearWorkouts true).1)._clearWorkouts geo).1.workouts = []
      ∧ (((s._clearWorkouts true).1)._clearWorkouts geo).1.storage = none
      ∧ (App._renderMap (s._clearWorkouts true).1 lat lng).2 = Outcome.ok
      ∧ ((App._renderMap (s._clearWorkouts true).1 lat lng).1._clearWorkouts geo).2
          = Outcome.ok
      ∧ ((App._renderMap (s._clearWorkouts true).1 lat lng).1._clearWorkouts geo).1.workouts
          = []
      ∧ ((App._renderMap (s._clearWorkouts true).1 lat lng).1._clearWorkouts geo).1.storage
          = none := by
  obtain ⟨h1, h2, h3, -⟩ := clearWorkouts_live true s hmap
  obtain ⟨h4, h5⟩ := clearWorkouts_keeps_empty geo _ h2 h3
  obtain ⟨h6, h7, -, h9⟩ := renderMap_empty (s._clearWorkouts true).1 lat lng h2
  obtain ⟨h10, h11, h12, -⟩ := clearWorkouts_live geo _ h6
  exact ⟨h1, h2, h3, h4, h5, h9, h10, h11, h12⟩

theorem clear_and_clear_again_witness :
    (scenarioRunDone._clearWorkouts true).2 = Outcome.ok
      ∧ (scenarioRunDone._clearWorkouts true).1.workouts = []
      ∧ (scenarioRunDone._clearWorkouts true).1.storage = none
      ∧ (((scenarioRunDone._clearWorkouts true).1)._clearWorkouts true).1.workouts = []
      ∧ (((scenarioRunDone._clearWorkouts true).1)._clearWorkouts true).1.storage = none
      ∧ (App._renderMap (scenarioRunDone._clearWorkouts true).1 (JSNum.fin 51.5)
            (JSNum.fin (-0.1))).2 = Outcome.ok
      ∧ ((App._renderMap (scenarioRunDone._clearWorkouts true).1 (JSNum.fin 51.5)
            (JSNum.fin (-0.1))).1._clearWorkouts true).2 = Outcome.ok
      ∧ ((App._renderMap (scenarioRunDone._clearWorkouts true).1 (JSNum.fin 51.5)
            (JSNum.fin (-0.1))).1._clearWorkouts true).1.workouts = []
      ∧ ((App._renderMap (scenarioRunDone._clearWorkouts true).1 (JSNum.fin 51.5)
            (JSNum.fin (-0.1))).1._clearWorkouts true).1.storage = none :=
  clear_and_clear_again scenarioRunDone true (JSNum.fin 51.5) (JSNum.fin (-0.1))
    (by
      simp [scenarioRunDone, scenarioRun, scenarioReady, App.fillForm, App.mapClick,
        App._showForm, App._renderMap, App.renderMarkers, App.fresh, App._newWorkout,
        runInputs, JSNum.gtZero, App.pushWorkout, App._setLocalStorage, App._hideForm,
        App._renderEntry, App._renderMarker, Running.new, Workout.new, JSVal.isNullish,
        App.hasLiveMap])

/-! ## The round trip through storage -/

theorem renderEntries_workouts (ws : List JSVal) : ∀ (s : App),
    (App.renderEntries s ws).1.workouts = s.workouts := by
  induction ws with
  | nil => intro s; rfl
  | cons w ws ih =>
    intro s
    unfold App.renderEntries App._renderEntry
    cases hw : w.isNullish <;> simp [ih]

theorem renderEntries_ok (ws : List JSVal) : ∀ (s : App),
    (∀ w ∈ ws, w.isNullish = false) → (App.renderEntries s ws).2 = Outcome.ok := by
  induction ws with
  | nil => intro s _; rfl
  | cons w ws ih =>
    intro s h
    have hw := h w (List.mem_cons_self _ _)
    unfold App.renderEntries App._renderEntry
    simp [hw, ih _ (fun u hu => h u (List.mem_cons_of_mem _ hu))]

theorem toJSElems_toJsonElems (ws : List JSVal) :
    Json.toJSElems (JSVal.toJsonElems ws) = ws.map JSVal.reparse := by
  induction ws with
  | nil => rfl
  | cons w ws ih => simp [JSVal.toJsonElems, Json.toJSElems, ih, JSVal.reparse]

theorem roundTrip_workouts (s : App) :
    s.roundTrip.1.workouts = s.workouts.map JSVal.reparse := by
  simp [App.roundTrip, App._getLocalStorage, App._setLocalStorage, App.fresh,
    renderEntries_workouts, toJSElems_toJsonElems]

theorem finiteOrAbsent_num (x : JSNum) (h : (JSVal.num x).FiniteOrAbsent) :
    ∃ q, x = JSNum.fin q := by
  rcases h with h | ⟨q, h⟩
  · cases h
  · exact ⟨q, by simpa using h⟩

theorem reparse_running (c : Clock) (coords : JSVal) (d t p : ℚ) (y : JSNum)
    (hc : coords = JSVal.undefined
      ∨ ∃ a b : ℚ, coords = JSVal.arr [JSVal.num (JSNum.fin a), JSVal.num (JSNum.fin b)])
    (hp : Running._setPace (JSNum.fin d) (JSNum.fin t) = JSNum.fin p) (k : String)
    (hk : k ≠ "cadence") :
    (Running.new c coords (JSNum.fin d) (JSNum.fin t) y).reparse.get k
      = (Running.new c coords (JSNum.fin d) (JSNum.fin t) y).get k := by
  have hk' : ¬ "cadence" = k := fun h => hk h.symm
  rcases hc with rfl | ⟨a, b, rfl⟩
  · by_cases h : "coords" = k
    · subst h
      cases y <;>
        simp [JSVal.reparse, Running.new, Workout.new, hp, JSVal.toJson, JSVal.toJsonProps,
          JSVal.toJsonElems, Json.toJS, Json.toJSProps, Json.toJSElems, JSVal.setProp,
          JSVal.get, JSVal.lookup]
    · cases y <;>
        simp [JSVal.reparse, Running.new, Workout.new, hp, JSVal.toJson, JSVal.toJsonProps,
          JSVal.toJsonElems, Json.toJS, Json.toJSProps, Json.toJSElems, JSVal.setProp,
          JSVal.get, JSVal.lookup, h, hk']
  · cases y <;>
      simp [JSVal.reparse, Running.new, Workout.new, hp, JSVal.toJson, JSVal.toJsonProps,
        JSVal.toJsonElems, Json.toJS, Json.toJSProps, Json.toJSElems, JSVal.setProp,
        JSVal.get, JSVal.lookup, hk']

theorem reparse_cycling (c : Clock) (coords : JSVal) (d t p : ℚ) (y : JSNum)
    (hc : coords = JSVal.undefined
      ∨ ∃ a b : ℚ, coords = JSVal.arr [JSVal.num (JSNum.fin a), JSVal.num (JSNum.fin b)])
    (hp : Cycling._setSpeed (JSNum.fin d) (JSNum.fin t) = JSNum.fin p) (k : String)
    (hk : k ≠ "elevation") :
    (Cycling.new c coords (JSNum.fin d) (JSNum.fin t) y).reparse.get k
      = (Cycling.new c coords (JSNum.fin d) (JSNum.fin t) y).get k := by
  have hk' : ¬ "elevation" = k := fun h => hk h.symm
  rcases hc with rfl | ⟨a, b, rfl⟩
  · by_cases h : "coords" = k
    · subst h
      cases y <;>
        simp [JSVal.reparse, Cycling.new, Workout.new, hp, JSVal.toJson, JSVal.toJsonProps,
          JSVal.toJsonElems, Json.toJS, Json.toJSProps, Json.toJSElems, JSVal.setProp,
          JSVal.get, JSVal.lookup]
    · cases y <;>
        simp [JSVal.reparse, Cycling.new, Workout.new, hp, JSVal.toJson, JSVal.toJsonProps,
          JSVal.toJsonElems, Json.toJS, Json.toJSProps, Json.toJSElems, JSVal.setProp,
          JSVal.get, JSVal.lookup, h, hk']
  · cases y <;>
      simp [JSVal.reparse, Cycling.new, Workout.new, hp, JSVal.toJson, JSVal.toJsonProps,
        JSVal.toJsonElems, Json.toJS, Json.toJSProps, Json.toJSElems, JSVal.setProp,
        JSVal.get, JSVal.lookup, hk']

theorem namedFields_ne (k : String) (hk : k ∈ namedFields) :
    k ≠ "cadence" ∧ k ≠ "elevation" := by
  simp only [namedFields, List.mem_cons, List.mem_singleton, List.not_mem_nil, or_false] at hk
  rcases hk with rfl | rfl | rfl | rfl | rfl | rfl | rfl | rfl <;> decide

theorem reparse_get_of_built (w : JSVal) (hb : w.IsBuilt) (hf : w.FiniteNumbers) (k : String)
    (hk : k ∈ namedFields) : w.reparse.get k = w.get k := by
  obtain ⟨hk1, hk2⟩ := namedFields_ne k hk
  obtain ⟨c, coords, d, t, y, -, hw | hw⟩ := hb
  · subst hw
    obtain ⟨hco, hd, ht, hp, -⟩ := hf
    simp only [Running.new, Workout.new, JSVal.get, JSVal.lookup, List.cons_append,
      List.nil_append, reduceCtorEq] at hco hd ht hp
    simp at hco hd ht hp
    obtain ⟨d, rfl⟩ := finiteOrAbsent_num _ hd
    obtain ⟨t, rfl⟩ := finiteOrAbsent_num _ ht
    obtain ⟨p, hp⟩ := finiteOrAbsent_num _ hp
    exact reparse_running c coords d t p y hco hp k hk1
  · subst hw
    obtain ⟨hco, hd, ht, -, hp⟩ := hf
    simp only [Cycling.new, Workout.new, JSVal.get, JSVal.lookup, List.cons_append,
      List.nil_append, reduceCtorEq] at hco hd ht hp
    simp at hco hd ht hp
    obtain ⟨d, rfl⟩ := finiteOrAbsent_num _ hd
    obtain ⟨t, rfl⟩ := finiteOrAbsent_num _ ht
    obtain ⟨p, hp⟩ := finiteOrAbsent_num _ hp
    exact reparse_cycling c coords d t p y hco hp k hk2

theorem reparse_not_nullish_of_built (w : JSVal) (hb : w.IsBuilt) :
    w.reparse.isNullish = false := by
  obtain ⟨c, coords, d, t, y, -, hw | hw⟩ := hb <;> subst hw <;>
    simp [JSVal.reparse, Running.new, Cycling.new, JSVal.toJson, Json.toJS, JSVal.isNullish]

theorem workout_built (x : Submission) (before : JSVal) (hp : before.IsPending) :
    (x.workout before).IsBuilt ∧ (x.pending before).IsPending := by
  have hpend : (x.pending before).IsPending := by
    unfold Submission.pending
    split
    · next lat lng _ => exact Or.inr ⟨lat, lng, rfl⟩
    · exact hp
  refine ⟨?_, hpend⟩
  unfold Submission.workout
  split
  · exact ⟨x.clock, _, _, _, _, hpend, Or.inl rfl⟩
  · exact ⟨x.clock, _, _, _, _, hpend, Or.inr rfl⟩

theorem submitAll_built (xs : List Submission) : ∀ (s : App),
    s.clickCoords.IsPending → (∀ w ∈ s.workouts, w.IsBuilt) →
    (∀ x ∈ xs, x.inputs.passes = true) →
    ∀ w ∈ (s.submitAll xs).workouts, w.IsBuilt := by
  induction xs with
  | nil => intro s _ hb _; simpa [App.submitAll] using hb
  | cons x xs ih =>
    intro s hp hb hpass
    have hx := hpass x (List.mem_cons_self _ _)
    obtain ⟨hw, hc, -, -⟩ := submit_eq s x hx
    obtain ⟨hbuilt, hpend⟩ := workout_built x s.clickCoords hp
    have := ih (s.submit x) (by rw [hc]; exact hpend)
      (by
        intro w hw'
        rw [hw, List.mem_append, List.mem_singleton] at hw'
        rcases hw' with h | h
        · exact hb w h
        · rw [h]; exact hbuilt)
      (fun y hy => hpass y (List.mem_cons_of_mem _ hy))
    simpa [App.submitAll] using this

theorem setPace_whole (d t : ℚ) (n : ℤ) (hd : d ≠ 0) (hq : t / d = n) (h0 : 0 ≤ n)
    (h : n ≤ 2 ^ 53) : Running._setPace (JSNum.fin d) (JSNum.fin t) = JSNum.fin (n : ℚ) := by
  rw [Running._setPace, div_whole t d n hd hq h0 h]
  exact toFixed1_intCast n h0 h

theorem setPace_infinite_distance (t : ℚ) :
    Running._setPace JSNum.posInf (JSNum.fin t) = JSNum.fin 0 := by
  have h := toFixed1_intCast 0 le_rfl (by norm_num)
  simpa [Running._setPace, JSNum.div] using h

/-- C4, at an input: a run whose distance reads as `Infinity` passes validation; the store
holds `Infinity` as its distance, and the store read back from the snapshot holds `null`. -/
theorem roundTrip_loses_infinite_distance :
    (∀ x ∈ endlessRun, x.inputs.passes = true)
      ∧ ((App.fresh none).submitAll endlessRun).workouts.map (fun w => w.get "distance")
        = [JSVal.num JSNum.posInf]
      ∧ ((App.fresh none).submitAll endlessRun).roundTrip.1.workouts.map
          (fun w => w.get "distance") = [JSVal.null]
      ∧ JSVal.num JSNum.posInf ≠ JSVal.null := by
  have hp : ∀ x ∈ endlessRun, x.inputs.passes = true := by
    intro x hx
    simp only [endlessRun, List.mem_singleton] at hx
    subst hx; decide
  have hw : ((App.fresh none).submitAll endlessRun).workouts
      = [Running.new scenarioClock
          (JSVal.arr [JSVal.num (JSNum.fin 10), JSVal.num (JSNum.fin 20)])
          JSNum.posInf (JSNum.fin 25) (JSNum.fin 150)] := by
    have := (submit_eq (App.fresh none)
      ⟨some (JSNum.fin 10, JSNum.fin 20),
        runInputs JSNum.posInf (JSNum.fin 25) (JSNum.fin 150), scenarioClock⟩ (by decide)).1
    simpa [App.submitAll, endlessRun, App.fresh, Submission.workout, Submission.pending,
      runInputs] using this
  refine ⟨hp, ?_, ?_, by simp⟩
  · rw [hw]; simp [Running.new, Workout.new, JSVal.get, JSVal.lookup]
  · rw [roundTrip_workouts, hw]
    simp [JSVal.reparse, Running.new, Workout.new, JSVal.toJson, JSVal.toJsonProps,
      JSVal.toJsonElems, Json.toJS, Json.toJSProps, Json.toJSElems, JSVal.setProp, JSVal.get,
      JSVal.lookup, setPace_infinite_distance]

/-- C4, amended: for every store reached from an empty page by successful submissions, if
the numbers among the named fields of its workouts are finite (coordinates, distance,
duration, pace or speed), then writing the store to storage and reading the snapshot back
completes and yields a sequence of the same length and order whose records have the same
`id`, `coords`, `distance`, `duration`, `description`, `type`, `pace` and `speed` as the
original workouts. -/
theorem roundTrip_preserves_fields (xs : List Submission)
    (hpass : ∀ x ∈ xs, x.inputs.passes = true)
    (hfinite : ∀ w ∈ ((App.fresh none).submitAll xs).workouts, w.FiniteNumbers) :
    ((App.fresh none).submitAll xs).roundTrip.2 = Outcome.ok
      ∧ ((App.fresh none).submitAll xs).roundTrip.1.workouts.length
          = ((App.fresh none).submitAll xs).workouts.length
      ∧ ∀ k ∈ namedFields,
          ((App.fresh none).submitAll xs).roundTrip.1.workouts.map (fun w => w.get k)
            = ((App.fresh none).submitAll xs).workouts.map (fun w => w.get k) := by
  have hbuilt := submitAll_built xs (App.fresh none) (Or.inl rfl)
    (by intro w hw; simp [App.fresh] at hw) hpass
  refine ⟨?_, ?_, ?_⟩
  · simp only [App.roundTrip, App._getLocalStorage, App._setLocalStorage, App.fresh]
    apply renderEntries_ok
    intro w hw
    rw [toJSElems_toJsonElems, List.mem_map] at hw
    obtain ⟨v, hv, rfl⟩ := hw
    exact reparse_not_nullish_of_built v (hbuilt v hv)
  · rw [roundTrip_workouts, List.length_map]
  · intro k hk
    rw [roundTrip_workouts, List.map_map]
    apply List.map_congr_left
    intro w hw
    exact reparse_get_of_built w (hbuilt w hw) (hfinite w hw) k hk

theorem finiteNumbers_running (c : Clock) (a b d t : ℚ) (y : JSNum) (n : ℤ) (hd : d ≠ 0)
    (hq : t / d = n) (h0 : 0 ≤ n) (h : n ≤ 2 ^ 53) :
    (Running.new c (JSVal.arr [JSVal.num (JSNum.fin a), JSVal.num (JSNum.fin b)])
      (JSNum.fin d) (JSNum.fin t) y).FiniteNumbers := by
  have hp := setPace_whole d t n hd hq h0 h
  refine ⟨Or.inr ⟨a, b, ?_⟩, Or.inr ⟨d, ?_⟩, Or.inr ⟨t, ?_⟩, Or.inr ⟨n, ?_⟩, Or.inl ?_⟩ <;>
    simp [Running.new, Workout.new, JSVal.get, JSVal.lookup, hp]

theorem distinctPair_workouts :
    ((App.fresh none).submitAll distinctPair).workouts
      = [Running.new { now := 1700000000000, dateText := "November 14" }
            (JSVal.arr [JSVal.num (JSNum.fin 10), JSVal.num (JSNum.fin 20)])
            (JSNum.fin 5) (JSNum.fin 25) (JSNum.fin 150),
         Running.new { now := 1700000001000, dateText := "November 14" }
            (JSVal.arr [JSVal.num (JSNum.fin 30), JSVal.num (JSNum.fin 40)])
            (JSNum.fin 8) (JSNum.fin 40) (JSNum.fin 160)] := by
  simp [distinctPair, App.submitAll, App.submit, App.fillForm, App.mapClick, App._showForm,
    App.fresh, App._newWorkout, runInputs, JSNum.gtZero, App.pushWorkout,
    App._setLocalStorage, App._hideForm, App._renderEntry, App._renderMarker, Running.new,
    Workout.new, JSVal.isNullish]

theorem roundTrip_preserves_fields_witness :
    ((App.fresh none).submitAll distinctPair).roundTrip.2 = Outcome.ok
      ∧ ((App.fresh none).submitAll distinctPair).roundTrip.1.workouts.length
          = ((App.fresh none).submitAll distinctPair).workouts.length
      ∧ ∀ k ∈ namedFields,
          ((App.fresh none).submitAll distinctPair).roundTrip.1.workouts.map
              (fun w => w.get k)
            = ((App.fresh none).submitAll distinctPair).workouts.map (fun w => w.get k) :=
  roundTrip_preserves_fields distinctPair
    (by
      intro x hx
      simp only [distinctPair, List.mem_cons, List.mem_singleton, List.not_mem_nil,
        or_false] at hx
      rcases hx with rfl | rfl <;> decide)
    (by
      intro w hw
      rw [distinctPair_workouts] at hw
      simp only [List.mem_cons, List.mem_singleton, List.not_mem_nil, or_false] at hw
      rcases hw with rfl | rfl
      · exact finiteNumbers_running _ 10 20 5 25 _ 5 (by norm_num) (by norm_num)
          (by norm_num) (by norm_num)
      · exact finiteNumbers_running _ 30 40 8 40 _ 5 (by norm_num) (by norm_num)
          (by norm_num) (by norm_num))

end Mapty
